import Mathlib

/-!
Verification of the smart-tier routing engine.

This file gives a shallow embedding, in Lean 4, of the tier-decision core of
the repository: the rule classifier (`RuleEngine.classifyTask` and friends),
the session-memory tracker (`ConversationMemoryTracker`), the usage/cost
ledger (`CostTracker`), and the tool handlers (`handleOrchestrate`,
`handleSwitchTier`, `handleSetBudget`).  JavaScript strings are embedded as
`List Char`, JS numbers used for money and percentages as `ℚ`, token counts
and rule priorities as `ℤ`, and `Date` values as integer milliseconds.
JS objects used as string-keyed dictionaries are embedded as association
lists in key insertion order, matching JS enumeration order for non-index
keys.  The theorems at the end settle the behavioural claims about the code.
-/

namespace SmartTier

/-- JS strings, embedded as lists of characters. -/
abbrev Str := List Char

/-- `s.toLowerCase()` on a JS string (character-wise lowercasing). -/
def lowerStr (s : Str) : Str := s.map Char.toLower

/-- `s.includes(p)` on JS strings: `p` occurs contiguously inside `s`. -/
def strIncludes (s p : Str) : Bool := decide (p <:+: s)

/-- ASCII whitespace, the fragment of JS `trim()` relevant here. -/
def isWsChar (c : Char) : Bool := c = ' ' || c = '\t' || c = '\n' || c = '\r'

/-- `task.trim().length === 0` (also covers the empty string). -/
def isBlankTask (s : Str) : Bool := s.all isWsChar

/-- The `while (l.length > m) l.shift()` loop: drop oldest elements from the
front until at most `m` remain. -/
def shiftUntil {γ : Type} (m : Nat) : List γ → List γ
  | [] => []
  | x :: xs => if xs.length + 1 ≤ m then x :: xs else shiftUntil m xs

/-- Stable insertion of `x` into a list sorted descending on `key`:
`x` goes before the first element whose key does not exceed `x`'s. -/
def insertKeyed {γ β : Type} [LinearOrder β] (key : γ → β) (x : γ) :
    List γ → List γ
  | [] => [x]
  | y :: ys => if key y ≤ key x then x :: y :: ys else y :: insertKeyed key x ys

/-- Stable sort, descending on `key`: the embedding of the JS
`arr.sort((a, b) => key(b) - key(a))` idiom (JS `Array.prototype.sort`
is stable, and the comparator orders by `key` descending). -/
def sortKeyed {γ β : Type} [LinearOrder β] (key : γ → β) (l : List γ) : List γ :=
  l.foldr (insertKeyed key) []

/-! ### String-keyed dictionaries

JS objects used as dictionaries (`monthly_totals`, `by_tier`, `by_model`,
`tierCounts`) are embedded as association lists in key insertion order:
`obj[k] = f(obj[k] ?? d)` updates the entry in place when the key exists and
otherwise appends a new entry at the end (JS enumeration order for
non-index string keys is insertion order). -/

/-- `obj[k]`, as an `Option`. -/
def lookupA {β : Type} (l : List (String × β)) (k : String) : Option β :=
  (l.find? (fun p => p.1 = k)).map (fun p => p.2)

/-- `obj[k] = f(obj[k] !== undefined ? obj[k] : d)`: update the first entry
with key `k` in place, or append a fresh entry. -/
def updAssoc {β : Type} (k : String) (d : β) (f : β → β) :
    List (String × β) → List (String × β)
  | [] => [(k, f d)]
  | p :: ps => if p.1 = k then (k, f p.2) :: ps else p :: updAssoc k d f ps

/-- `Object.keys`, in order. -/
def keysA {β : Type} (l : List (String × β)) : List String := l.map Prod.fst

/-! ### Occurrence counting in insertion order

`buildCounts` embeds the JS idiom
`for (x of l) counts[x] = (counts[x] || 0) + 1`: an association list from
each element to its number of occurrences, keyed in first-encounter order. -/

/-- Occurrence counts of a list, keyed in first-encounter order. -/
def buildCounts (l : List String) : List (String × Nat) :=
  l.foldl (fun acc x => updAssoc x 0 (· + 1) acc) []

/-- Invariant tying an accumulated counts dictionary to the list prefix `p`
already processed: the entries are exactly the occurrence counts of `p`, and
the keys appear in order of first occurrence in `p`. -/
def CountsInv (p : List String) (acc : List (String × Nat)) : Prop :=
  (∀ q : String × Nat, q ∈ acc ↔ (q.1 ∈ p ∧ q.2 = p.count q.1)) ∧
  (keysA acc).Pairwise (fun a b => p.indexOf a < p.indexOf b)

/-! ### ConversationMemoryTracker (tracking/memory.ts)

Timestamps (`new Date().toISOString()`) are abstracted to integer
milliseconds; `randomUUID()` session ids to naturals supplied by the caller.
The constructor parameters `maxEntriesPerSession` / `maxSessions` (defaults
100 / 10) live in the state. -/

structure MemoryEntry where
  timestamp : Int
  task_pattern : String
  tier_used : String
  success : Bool
  context : Option String := none
deriving DecidableEq, Repr

structure ConversationMemory where
  session_id : Nat
  entries : List MemoryEntry
  created_at : Int
  last_updated : Int
deriving DecidableEq, Repr

structure MemoryData where
  sessions : List ConversationMemory
  current_session_id : Option Nat
  maxEntriesPerSession : Nat := 100
  maxSessions : Nat := 10
deriving DecidableEq, Repr

/-- `getCurrentSession`: look the current id up in the session list. -/
def getCurrentSession (md : MemoryData) : Option ConversationMemory :=
  match md.current_session_id with
  | none => none
  | some id => md.sessions.find? (fun s => s.session_id = id)

/-- `startNewSession`: push a fresh empty session, make it current, and
prune oldest sessions while more than `maxSessions` remain. -/
def startNewSession (md : MemoryData) (sessionId : Nat) (now : Int) : MemoryData :=
  let session : ConversationMemory :=
    { session_id := sessionId, entries := [], created_at := now, last_updated := now }
  { md with
    sessions := shiftUntil md.maxSessions (md.sessions ++ [session]),
    current_session_id := some sessionId }

/-- `extractPattern`: first-match-wins categorisation of a task.  The JS
regexes are case-insensitive but are run against the already-lowercased
text with all-lowercase alphabetic patterns, so each is equivalent to a
substring test on the lowered text. -/
def extractPattern (task : Str) : String :=
  let lowered := lowerStr task
  if strIncludes lowered "architect".data then "architecture"
  else if strIncludes lowered "design".data then "design"
  else if strIncludes lowered "security".data then "security"
  else if strIncludes lowered "refactor".data then "refactor"
  else if strIncludes lowered "implement".data then "implementation"
  else if strIncludes lowered "create".data || strIncludes lowered "add".data then
    "creation"
  else if strIncludes lowered "fix".data || strIncludes lowered "bug".data ||
      strIncludes lowered "debug".data then "bugfix"
  else if strIncludes lowered "explore".data || strIncludes lowered "search".data ||
      strIncludes lowered "find".data then "exploration"
  else if strIncludes lowered "test".data then "testing"
  else if strIncludes lowered "document".data then "documentation"
  else "general"

/-- Mutating `session.entries.push(entry)` followed by the eviction loop,
on the (unique) session with the given id inside the list. -/
def updateSessionEntries (id : Nat) (e : MemoryEntry) (maxE : Nat) :
    List ConversationMemory → List ConversationMemory
  | [] => []
  | s :: rest =>
    if s.session_id = id then
      { s with entries := shiftUntil maxE (s.entries ++ [e]),
               last_updated := e.timestamp } :: rest
    else s :: updateSessionEntries id e maxE rest

/-- `recordTask(taskPattern, tierUsed, success, context)`.  When no current
session exists the JS code starts one and recurses; with `maxSessions ≥ 1`
that recursion takes exactly one retry (which is what is embedded here —
with `maxSessions = 0` the JS code would not terminate). -/
def recordTask (md : MemoryData) (now : Int) (freshId : Nat) (taskPattern : Str)
    (tierUsed : String) (success : Bool) (context : Option String) : MemoryData :=
  let entry : MemoryEntry :=
    { timestamp := now, task_pattern := extractPattern taskPattern,
      tier_used := tierUsed, success := success, context := context }
  match getCurrentSession md with
  | some s =>
    { md with sessions :=
        updateSessionEntries s.session_id entry md.maxEntriesPerSession md.sessions }
  | none =>
    let md' := startNewSession md freshId now
    match getCurrentSession md' with
    | some s =>
      { md' with sessions :=
          updateSessionEntries s.session_id entry md'.maxEntriesPerSession md'.sessions }
    | none => md'

/-- `recordTierSwitch(fromTier, toTier, reason)`. -/
def recordTierSwitch (md : MemoryData) (now : Int) (freshId : Nat)
    (fromTier toTier : String) (reason : Option String) : MemoryData :=
  recordTask md now freshId
    (String.data ("tier_switch:" ++ fromTier ++ "->" ++ toTier)) toTier true reason

/-- `getRecommendedTier(task)`: most common tier among the successful
same-category entries of the current session (JS object iteration order plus
stable sort break ties towards the first-encountered tier). -/
def getRecommendedTier (md : MemoryData) (task : Str) : Option String :=
  let pattern := extractPattern task
  match getCurrentSession md with
  | none => none
  | some session =>
    let relevantEntries :=
      session.entries.filter (fun e => e.task_pattern = pattern && e.success)
    if relevantEntries.isEmpty then none
    else
      let tierCounts := buildCounts (relevantEntries.map (fun e => e.tier_used))
      match (sortKeyed (fun q => q.2) tierCounts).head? with
      | some q => some q.1
      | none => none

/-! ### RuleEngine (rules/rule-engine.ts)

Rule priorities and escalation thresholds are `z.number()` in the config
schema; they are embedded as `ℤ` (the claims under study do not involve
fractional priorities).  `target_tier` is a `Record<string, string>` of
which only the keys `'2-tier'` and `'3-tier'` are ever read, so exactly
those two optional entries are embedded. -/

inductive Strategy where
  | twoTier
  | threeTier
deriving DecidableEq, Repr

structure KeywordRule where
  name : String
  patterns : List Str
  target2 : Option String
  target3 : Option String
  priority : Int
deriving DecidableEq, Repr

/-- `rule.target_tier[this.strategy]` followed by the JS truthiness test
(`if (targetTier)`): an empty-string target counts as absent. -/
def targetFor (r : KeywordRule) (s : Strategy) : Option String :=
  match (match s with | .twoTier => r.target2 | .threeTier => r.target3) with
  | some v => if v = "" then none else some v
  | none => none

structure ErrorEscalation where
  enabled : Bool
  threshold : Int
  window_minutes : Int
  action : String
deriving DecidableEq, Repr

structure CostOptimization where
  enabled : Bool
  simple_task_patterns : List Str
  action : String
deriving DecidableEq, Repr

structure RulesConfig where
  keyword_rules : List KeywordRule
  error_escalation : ErrorEscalation
  cost_optimization : Option CostOptimization := none
deriving DecidableEq, Repr

structure RuleMatch where
  rule_name : String
  matched_pattern : Option Str := none
  target_tier : String
  priority : Int
  reason : String
deriving DecidableEq, Repr

/-- `getAvailableTiers()` for a strategy. -/
def getAvailableTiers (s : Strategy) : List String :=
  match s with
  | .twoTier => ["primary", "critical"]
  | .threeTier => ["tier1", "tier2", "tier3"]

/-- `isValidTier(tier)`. -/
def isValidTier (s : Strategy) (tier : String) : Bool :=
  (getAvailableTiers s).contains tier

/-- `getDefaultTier()`: the strategy's lowest-cost tier. -/
def getDefaultTier (s : Strategy) : String :=
  match s with
  | .twoTier => "primary"
  | .threeTier => "tier1"

/-- `getEscalatedTier(currentTier)`: the escalation map, where both the
explicit `null` entries (ceiling tiers) and absent keys end up `null`. -/
def getEscalatedTier (s : Strategy) (currentTier : String) : Option String :=
  match s with
  | .twoTier => if currentTier = "primary" then some "critical" else none
  | .threeTier =>
    if currentTier = "tier1" then some "tier2"
    else if currentTier = "tier2" then some "tier3"
    else none

/-- `cleanErrorWindow()`: keep error timestamps strictly newer than
`now - window_minutes` (in ms). -/
def cleanErrorWindow (window_minutes : Int) (now : Int) (w : List Int) : List Int :=
  let cutoff := now - window_minutes * 60 * 1000
  w.filter (fun d => decide (cutoff < d))

/-- The keyword-rule pass of `classifyTask`: each rule contributes at most
one match, from the first pattern occurring in the lowercased task (the
inner loop `break`s after the first hit whether or not the rule has a
target for the active strategy). -/
def keywordMatches (rules : List KeywordRule) (s : Strategy) (taskLower : Str) :
    List RuleMatch :=
  rules.filterMap (fun rule =>
    match rule.patterns.find? (fun p => strIncludes taskLower (lowerStr p)) with
    | none => none
    | some pattern =>
      match targetFor rule s with
      | none => none
      | some targetTier =>
        some { rule_name := rule.name, matched_pattern := some pattern,
               target_tier := targetTier, priority := rule.priority,
               reason := "Matched pattern \"" ++ pattern.asString ++ "\" in "
                 ++ rule.name })

/-- The error-escalation pass of `classifyTask`. -/
def escalationMatch (cfg : RulesConfig) (s : Strategy) (errorWindow : List Int)
    (now : Int) (currentTier : String) : Option RuleMatch :=
  if cfg.error_escalation.enabled then
    let w := cleanErrorWindow cfg.error_escalation.window_minutes now errorWindow
    if (w.length : Int) ≥ cfg.error_escalation.threshold then
      match getEscalatedTier s currentTier with
      | some escalatedTier =>
        some { rule_name := "error_escalation", target_tier := escalatedTier,
               priority := 200,
               reason := toString w.length ++ " errors in last "
                 ++ toString cfg.error_escalation.window_minutes ++ " minutes" }
      | none => none
    else none
  else none

/-- The cost-optimization pass of `classifyTask` (evaluated only when no
keyword/escalation match exists). -/
def costOptMatch (cfg : RulesConfig) (s : Strategy) (taskLower : Str) :
    Option RuleMatch :=
  match cfg.cost_optimization with
  | none => none
  | some co =>
    if co.enabled then
      match co.simple_task_patterns.find? (fun p => strIncludes taskLower (lowerStr p)) with
      | some pattern =>
        some { rule_name := "cost_optimization", matched_pattern := some pattern,
               target_tier := if s = Strategy.twoTier then "primary" else "tier1",
               priority := 10,
               reason := "Simple task detected - using lowest cost tier" }
      | none => none
    else none

/-- The memory-based pass of `classifyTask` (evaluated only when the
previous passes produced nothing); the JS truthiness test on the
recommendation is subsumed by `isValidTier` since `""` is never a valid
tier. -/
def memoryMatch (s : Strategy) (mem : Option MemoryData) (task : Str) :
    Option RuleMatch :=
  match mem with
  | none => none
  | some md =>
    match getRecommendedTier md task with
    | some memoryRecommendation =>
      if isValidTier s memoryRecommendation then
        some { rule_name := "memory_based", target_tier := memoryRecommendation,
               priority := 30, reason := "Based on previous similar tasks" }
      else none
    | none => none

/-- The `matches` array of `classifyTask` at the point of the final sort:
keyword rules then escalation are pushed unconditionally; cost optimization
is pushed only when that list is empty; memory only when it is still
empty. -/
def classifyMatches (cfg : RulesConfig) (s : Strategy) (errorWindow : List Int)
    (now : Int) (mem : Option MemoryData) (task : Str) (currentTier : String) :
    List RuleMatch :=
  let taskLower := lowerStr task
  let ms1 := keywordMatches cfg.keyword_rules s taskLower
    ++ (escalationMatch cfg s errorWindow now currentTier).toList
  let ms2 := ms1 ++ (if ms1.isEmpty then (costOptMatch cfg s taskLower).toList else [])
  ms2 ++ (if ms2.isEmpty then (memoryMatch s mem task).toList else [])

/-- `classifyTask(task, currentTier)`: collect the matches, stable-sort
descending by priority and return the head (null when no match).  The
engine's mutable fields (`config`, `strategy`, `errorWindow`,
`memoryTracker`) are explicit arguments. -/
def classifyTask (config : Option RulesConfig) (s : Strategy)
    (errorWindow : List Int) (now : Int) (mem : Option MemoryData)
    (task : Str) (currentTier : String) : Option RuleMatch :=
  match config with
  | none => none
  | some cfg =>
    (sortKeyed (fun m => m.priority)
      (classifyMatches cfg s errorWindow now mem task currentTier)).head?

/-! ### CostTracker (tracking/cost-tracker.ts)

Money is embedded as `ℚ`, token counts as `ℤ`.  `getMonthKey()` values are
opaque strings supplied along with the abstract timestamp (both derive from
the same `new Date()`); the month key is kept on the embedded record. -/

structure TierAgg where
  cost : ℚ
  tokens : Int
deriving DecidableEq, Repr

structure MonthlyUsage where
  total_cost : ℚ
  total_tokens : Int
  by_tier : List (String × TierAgg)
  by_model : List (String × TierAgg)
deriving DecidableEq, Repr

structure UsageRecord where
  timestamp : Int
  monthKey : String
  provider : String
  model : String
  tier : String
  input_tokens : Int
  output_tokens : Int
  cost_usd : ℚ
  task_summary : Option String := none
deriving DecidableEq, Repr

structure UsageData where
  records : List UsageRecord
  monthly_totals : List (String × MonthlyUsage)
deriving DecidableEq, Repr

/-- The in-memory state after constructing a tracker over no saved file. -/
def emptyUsage : UsageData := { records := [], monthly_totals := [] }

structure RecordParams where
  provider : String
  model : String
  tier : String
  input_tokens : Int
  output_tokens : Int
  cost_usd : ℚ
  task_summary : Option String := none
deriving DecidableEq, Repr

/-- Simultaneous `.cost += c; .tokens += t` on a breakdown entry. -/
def aggAdd (c : ℚ) (t : Int) (a : TierAgg) : TierAgg :=
  { cost := a.cost + c, tokens := a.tokens + t }

/-- `record(params)`: append the usage record and fold it into the month's
totals and per-tier / per-model breakdowns. -/
def record (data : UsageData) (params : RecordParams) (now : Int)
    (monthKey : String) : UsageData :=
  let r : UsageRecord :=
    { timestamp := now, monthKey := monthKey, provider := params.provider,
      model := params.model, tier := params.tier,
      input_tokens := params.input_tokens, output_tokens := params.output_tokens,
      cost_usd := params.cost_usd, task_summary := params.task_summary }
  let tok := params.input_tokens + params.output_tokens
  let zeroMonthly : MonthlyUsage :=
    { total_cost := 0, total_tokens := 0, by_tier := [], by_model := [] }
  let modelKey := params.provider ++ ":" ++ params.model
  { records := data.records ++ [r],
    monthly_totals := updAssoc monthKey zeroMonthly (fun m =>
      { total_cost := m.total_cost + params.cost_usd,
        total_tokens := m.total_tokens + tok,
        by_tier := updAssoc params.tier ⟨0, 0⟩ (aggAdd params.cost_usd tok) m.by_tier,
        by_model := updAssoc modelKey ⟨0, 0⟩ (aggAdd params.cost_usd tok) m.by_model })
      data.monthly_totals }

/-- JS `Math.round(x * 100) / 100` (`Math.round` is floor of `x + 1/2`). -/
def round2 (x : ℚ) : ℚ := ((Rat.floor (x * 100 + 1/2) : ℚ)) / 100

/-- JS `Math.round(x * 10) / 10`. -/
def round1 (x : ℚ) : ℚ := ((Rat.floor (x * 10 + 1/2) : ℚ)) / 10

structure AlertThreshold where
  percent : ℚ
  action : String
deriving DecidableEq, Repr

/-- The budget argument of `getStatus` (`alert_thresholds` optional). -/
structure BudgetParam where
  monthly_limit_usd : ℚ
  alert_thresholds : Option (List AlertThreshold) := none
deriving DecidableEq, Repr

structure UsageStatus where
  current_month : String
  spent_usd : ℚ
  budget_usd : ℚ
  percent_used : ℚ
  remaining_usd : ℚ
  alert_triggered : Bool
  triggered_alerts : List AlertThreshold
  is_blocked : Bool
  by_tier : List (String × TierAgg)
  by_model : List (String × TierAgg)
deriving DecidableEq, Repr

/-- `getStatus(budget)` for the current month key. -/
def getStatus (data : UsageData) (budget : BudgetParam) (monthKey : String) :
    UsageStatus :=
  let monthly := lookupA data.monthly_totals monthKey
  let spent : ℚ := match monthly with | some u => u.total_cost | none => 0
  let percentUsed : ℚ :=
    if budget.monthly_limit_usd > 0 then spent / budget.monthly_limit_usd * 100 else 0
  let thresholds :=
    budget.alert_thresholds.getD [{ percent := 80, action := "notify_user" }]
  let triggeredAlerts :=
    sortKeyed (fun t => t.percent)
      (thresholds.filter (fun t => decide (t.percent ≤ percentUsed)))
  let isBlocked := triggeredAlerts.any
    (fun t => t.action == "block_high_tier" && decide (t.percent ≤ percentUsed))
  { current_month := monthKey,
    spent_usd := round2 spent,
    budget_usd := budget.monthly_limit_usd,
    percent_used := round1 percentUsed,
    remaining_usd := round2 (budget.monthly_limit_usd - spent),
    alert_triggered := !triggeredAlerts.isEmpty,
    triggered_alerts := triggeredAlerts,
    is_blocked := isBlocked,
    by_tier := match monthly with | some u => u.by_tier | none => [],
    by_model := match monthly with | some u => u.by_model | none => [] }

/-! ### Server context and tool handlers (server.ts, tools/*.ts)

The `ServerContext` fields relevant to the decision logic are embedded;
provider clients and output formatting are out of scope.  Fresh session ids
and the clock are explicit arguments.  Tool results are embedded as small
result values rather than the rendered text blocks. -/

structure ServerState where
  currentTier : String
  strategy : Strategy
  autoMode : Bool
deriving DecidableEq, Repr

structure BudgetConfig where
  monthly_limit_usd : ℚ
  alert_thresholds : List AlertThreshold
deriving DecidableEq, Repr

structure ServerContext where
  state : ServerState
  budget : Option BudgetConfig
  rules : Option RulesConfig
  ruleStrategy : Strategy
  errorWindow : List Int
  costTracker : UsageData
  memoryTracker : MemoryData
deriving DecidableEq, Repr

/-- `switchTier(context, tier, reason)` from server.ts: update
`state.currentTier` and record the switch in memory. -/
def switchTier (ctx : ServerContext) (tier : String) (reason : Option String)
    (now : Int) (freshId : Nat) : ServerContext :=
  let previousTier := ctx.state.currentTier
  { ctx with
    state := { ctx.state with currentTier := tier },
    memoryTracker :=
      recordTierSwitch ctx.memoryTracker now freshId previousTier tier reason }

inductive SwitchTierResult where
  | invalidTier (tier : String) (strategy : Strategy)
  | switched (fromTier toTier : String)
deriving DecidableEq, Repr

/-- `handleSwitchTier(args, context)` (the response text additionally names
the tier's configured model, which is pure formatting). -/
def handleSwitchTier (ctx : ServerContext) (tier : String) (reason : Option String)
    (now : Int) (freshId : Nat) : SwitchTierResult × ServerContext :=
  if !(isValidTier ctx.ruleStrategy tier) then
    (.invalidTier tier ctx.state.strategy, ctx)
  else
    let previousTier := ctx.state.currentTier
    (.switched previousTier tier, switchTier ctx tier reason now freshId)

/-- The `highCostTiers` constant of `handleOrchestrate`. -/
def highCostTiers : List String := ["critical", "tier3", "tier2"]

inductive OrchOutcome where
  | invalidTask
  | invalidTier (tier : String)
  | ok (target : String) (reason : String) (switched : Bool)
deriving DecidableEq, Repr

/-- `context.config.budget || { monthly_limit_usd: 100, alert_thresholds: [] }`
as passed by `handleOrchestrate` to `getStatus`. -/
def orchBudgetParam (ctx : ServerContext) : BudgetParam :=
  let budget := ctx.budget.getD
    { monthly_limit_usd := 100, alert_thresholds := [] }
  { monthly_limit_usd := budget.monthly_limit_usd,
    alert_thresholds := some budget.alert_thresholds }

/-- Tail of `handleOrchestrate`: switch when the tier changed, auto-switch
was requested and auto mode is on (also recording the task in memory);
otherwise only report. -/
def applySwitch (ctx : ServerContext) (task : Str) (targetTier : String)
    (reason : String) (autoSwitch : Bool) (now : Int) (fid1 fid2 : Nat) :
    OrchOutcome × ServerContext :=
  let tierChanged := targetTier ≠ ctx.state.currentTier
  if tierChanged ∧ autoSwitch ∧ ctx.state.autoMode then
    let ctx1 := switchTier ctx targetTier (some reason) now fid1
    let mt2 := recordTask ctx1.memoryTracker now fid2 task targetTier true (some reason)
    let ctx2 := { ctx1 with memoryTracker := mt2 }
    (.ok targetTier reason true, ctx2)
  else
    (.ok targetTier reason false, ctx)

/-- `handleOrchestrate(args, context)`. -/
def handleOrchestrate (ctx : ServerContext) (task : Str) (forceTier : Option String)
    (autoSwitch : Bool) (now : Int) (monthKey : String) (fid1 fid2 : Nat) :
    OrchOutcome × ServerContext :=
  if isBlankTask task then (.invalidTask, ctx)
  else
    let usageStatus := getStatus ctx.costTracker (orchBudgetParam ctx) monthKey
    let isBlocked := usageStatus.is_blocked
    match forceTier with
    | some ft =>
      if !(isValidTier ctx.ruleStrategy ft) then (.invalidTier ft, ctx)
      else if isBlocked && highCostTiers.contains ft then
        let fallbackTier :=
          if ctx.state.strategy = Strategy.twoTier then "primary" else "tier1"
        applySwitch ctx task fallbackTier "budget limit - forced fallback"
          autoSwitch now fid1 fid2
      else
        applySwitch ctx task ft "forced by user" autoSwitch now fid1 fid2
    | none =>
      match classifyTask ctx.rules ctx.ruleStrategy ctx.errorWindow now
          (some ctx.memoryTracker) task ctx.state.currentTier with
      | some ruleMatch =>
        if isBlocked && highCostTiers.contains ruleMatch.target_tier then
          let fallbackTier :=
            if ctx.state.strategy = Strategy.twoTier then "primary" else "tier1"
          applySwitch ctx task fallbackTier (ruleMatch.reason ++ " (budget blocked)")
            autoSwitch now fid1 fid2
        else
          applySwitch ctx task ruleMatch.target_tier ruleMatch.reason
            autoSwitch now fid1 fid2
      | none =>
        applySwitch ctx task ctx.state.currentTier "no rule match"
          autoSwitch now fid1 fid2

/-- Stable ascending insertion, for `sort((a, b) => a.percent - b.percent)`. -/
def insertKeyedAsc {γ β : Type} [LinearOrder β] (key : γ → β) (x : γ) :
    List γ → List γ
  | [] => [x]
  | y :: ys => if key x ≤ key y then x :: y :: ys else y :: insertKeyedAsc key x ys

/-- Stable ascending sort. -/
def sortKeyedAsc {γ β : Type} [LinearOrder β] (key : γ → β) (l : List γ) : List γ :=
  l.foldr (insertKeyedAsc key) []

inductive SetBudgetResult where
  | errInvalidLimit
  | errInvalidPercent
  | updated (displayThresholds : List AlertThreshold) (usage : UsageStatus)
deriving DecidableEq, Repr

/-- `handleSetBudget(args, context)`: validate, update (only)
`config.budget.monthly_limit_usd` in place, then build a default+custom
threshold list used for the status rendered in the response. -/
def handleSetBudget (ctx : ServerContext) (monthlyLimit : ℚ)
    (alertThresholdPercent : ℚ) (monthKey : String) :
    SetBudgetResult × ServerContext :=
  if monthlyLimit ≤ 0 then (.errInvalidLimit, ctx)
  else if alertThresholdPercent < 0 ∨ alertThresholdPercent > 100 then
    (.errInvalidPercent, ctx)
  else
    let newBudget : BudgetConfig :=
      match ctx.budget with
      | none => { monthly_limit_usd := monthlyLimit, alert_thresholds := [] }
      | some b => { b with monthly_limit_usd := monthlyLimit }
    let ctx' := { ctx with budget := some newBudget }
    let defaultThresholds : List AlertThreshold :=
      [⟨50, "log_warning"⟩, ⟨95, "require_confirmation"⟩, ⟨100, "block_high_tier"⟩]
    let customThreshold : AlertThreshold := ⟨alertThresholdPercent, "notify_user"⟩
    let hasCustomThreshold :=
      defaultThresholds.any (fun t => decide (t.percent = alertThresholdPercent))
    let alertThresholds :=
      if hasCustomThreshold then defaultThresholds
      else sortKeyedAsc (fun t => t.percent) (defaultThresholds ++ [customThreshold])
    let usage := getStatus ctx'.costTracker
      { monthly_limit_usd := monthlyLimit, alert_thresholds := some alertThresholds }
      monthKey
    (.updated alertThresholds usage, ctx')

/-! ### Spec-side definitions and proof harness

Definitions in this section restate quantities in the spec's words (for
comparison against the code embedding above) or package call sequences for
the theorems; they are not part of the code embedding. -/

/-- The spec's unrounded usage percentage (§4.2): `spent / limit × 100`,
and `0` when the limit is `≤ 0`.  Follows the spec's words, for comparison
with the `percent_used` field computed by `getStatus`. -/
def specPercentUsed (data : UsageData) (budget : BudgetParam) (monthKey : String) : ℚ :=
  let spent : ℚ := match lookupA data.monthly_totals monthKey with
    | some u => u.total_cost
    | none => 0
  if budget.monthly_limit_usd > 0 then spent / budget.monthly_limit_usd * 100 else 0

/-- The spec's triggered-alert set: every configured threshold whose percent
is at most the given usage percentage (the default threshold list applies
when none was configured, as in `getStatus`). -/
def specTriggered (budget : BudgetParam) (pu : ℚ) : List AlertThreshold :=
  (budget.alert_thresholds.getD [{ percent := 80, action := "notify_user" }]).filter
    (fun t => decide (t.percent ≤ pu))

/-- Sum of the per-tier costs of a breakdown. -/
def tierCostSum (l : List (String × TierAgg)) : ℚ :=
  (l.map (fun q => q.2.cost)).sum

/-- Sum of the per-tier token counts of a breakdown. -/
def tierTokSum (l : List (String × TierAgg)) : Int :=
  (l.map (fun q => q.2.tokens)).sum

/-- Total cost of the recorded events belonging to a given period. -/
def recordsCostSum (monthKey : String) (rs : List UsageRecord) : ℚ :=
  ((rs.filter (fun r => r.monthKey = monthKey)).map (fun r => r.cost_usd)).sum

/-- Total tokens of the recorded events belonging to a given period. -/
def recordsTokSum (monthKey : String) (rs : List UsageRecord) : Int :=
  ((rs.filter (fun r => r.monthKey = monthKey)).map
    (fun r => r.input_tokens + r.output_tokens)).sum

/-- The `UsageRecord` one `record` call appends. -/
def recordedOf (p : RecordParams) (now : Int) (mk : String) : UsageRecord :=
  { timestamp := now, monthKey := mk, provider := p.provider, model := p.model,
    tier := p.tier, input_tokens := p.input_tokens,
    output_tokens := p.output_tokens, cost_usd := p.cost_usd,
    task_summary := p.task_summary }

/-- The update one `record` call applies to its month's totals. -/
def monthUpd (p : RecordParams) : MonthlyUsage → MonthlyUsage := fun mo =>
  { total_cost := mo.total_cost + p.cost_usd,
    total_tokens := mo.total_tokens + (p.input_tokens + p.output_tokens),
    by_tier := updAssoc p.tier ⟨0, 0⟩
      (aggAdd p.cost_usd (p.input_tokens + p.output_tokens)) mo.by_tier,
    by_model := updAssoc (p.provider ++ ":" ++ p.model) ⟨0, 0⟩
      (aggAdd p.cost_usd (p.input_tokens + p.output_tokens)) mo.by_model }

/-- A sequence of `record` calls (params, timestamp, month key) applied to a
ledger state. -/
def applyRecords (data : UsageData) (calls : List (RecordParams × Int × String)) :
    UsageData :=
  calls.foldl (fun d c => record d c.1 c.2.1 c.2.2) data

/-- The per-period bookkeeping invariant of the ledger: every stored
period's totals are internally consistent and reflect exactly the recorded
events of that period. -/
def LedgerInv (data : UsageData) : Prop :=
  ∀ m : String,
    (∀ u, lookupA data.monthly_totals m = some u →
      tierCostSum u.by_tier = u.total_cost ∧
      tierTokSum u.by_tier = u.total_tokens ∧
      u.total_cost = recordsCostSum m data.records ∧
      u.total_tokens = recordsTokSum m data.records) ∧
    (lookupA data.monthly_totals m = none →
      data.records.filter (fun r => r.monthKey = m) = [])

/-- The memory state right after the tracker's constructor: no saved file,
one fresh (empty) session started with id 0 at time 0. -/
def freshMemory (maxE maxS : Nat) : MemoryData :=
  startNewSession
    { sessions := [], current_session_id := none,
      maxEntriesPerSession := maxE, maxSessions := maxS } 0 0

/-- Arguments of one `recordTask` call. -/
structure RecordCall where
  now : Int
  freshId : Nat
  taskPattern : Str
  tierUsed : String
  success : Bool
  context : Option String := none
deriving DecidableEq, Repr

/-- The entry a `recordTask` call constructs. -/
def mkEntry (c : RecordCall) : MemoryEntry :=
  { timestamp := c.now, task_pattern := extractPattern c.taskPattern,
    tier_used := c.tierUsed, success := c.success, context := c.context }

/-- A sequence of `recordTask` calls applied to a memory state. -/
def applyRecordCalls (md : MemoryData) (calls : List RecordCall) : MemoryData :=
  calls.foldl
    (fun m c => recordTask m c.now c.freshId c.taskPattern c.tierUsed c.success c.context)
    md

/-- The `relevantEntries` of `getRecommendedTier`: successful entries of the
session whose stored category equals the task's derived category. -/
def relevantFor (s : ConversationMemory) (task : Str) : List MemoryEntry :=
  s.entries.filter (fun e => e.task_pattern = extractPattern task && e.success)

/-- The tiers of a list of entries, in entry order. -/
def tiersOf (rel : List MemoryEntry) : List String :=
  rel.map (fun e => e.tier_used)

/-- The tier `handleOrchestrate` resolves before the budget gate: the forced
tier when given, otherwise the classification's target. -/
def resolvedTier (ctx : ServerContext) (task : Str) (forceTier : Option String)
    (now : Int) : Option String :=
  match forceTier with
  | some ft => some ft
  | none =>
    (classifyTask ctx.rules ctx.ruleStrategy ctx.errorWindow now
      (some ctx.memoryTracker) task ctx.state.currentTier).map
      (fun m => m.target_tier)

/-! ### Concrete instances used by counterexamples and witnesses -/

/-- The effect of one `recordTask` push (entry appended, oldest evicted,
`last_updated` refreshed) on a session. -/
def bumpSession (s : ConversationMemory) (e : MemoryEntry) (maxE : Nat) :
    ConversationMemory :=
  { s with entries := shiftUntil maxE (s.entries ++ [e]),
           last_updated := e.timestamp }

/-- The memory entry `recordTierSwitch` constructs. -/
def switchEntry (fromTier toTier : String) (now : Int) (reason : Option String) :
    MemoryEntry :=
  { timestamp := now,
    task_pattern :=
      extractPattern (String.data ("tier_switch:" ++ fromTier ++ "->" ++ toTier)),
    tier_used := toTier, success := true, context := reason }

/-- The alert thresholds stored in the context's budget config ([] when no
budget config is present). -/
def storedThresholds (ctx : ServerContext) : List AlertThreshold :=
  (ctx.budget.map (fun b => b.alert_thresholds)).getD []

/-- A `getStatus` budget argument from a limit and a threshold list. -/
def budgetParamOf (ml : ℚ) (ths : List AlertThreshold) : BudgetParam :=
  { monthly_limit_usd := ml, alert_thresholds := some ths }

/-- A context with only its stored budget limit replaced (thresholds kept,
created empty when absent). -/
def withBudgetLimit (ctx : ServerContext) (ml : ℚ) : ServerContext :=
  { ctx with budget := some ⟨ml, storedThresholds ctx⟩ }

/-- The fresh session `startNewSession` creates. -/
def emptySession (id : Nat) (ts : Int) : ConversationMemory :=
  { session_id := id, entries := [], created_at := ts, last_updated := ts }

/-- Three concrete `recordTask` calls. -/
def exRecordCalls : List RecordCall :=
  [{ now := 1, freshId := 5, taskPattern := "fix the login bug".data,
     tierUsed := "primary", success := true },
   { now := 2, freshId := 6, taskPattern := "explore the repo".data,
     tierUsed := "critical", success := false },
   { now := 3, freshId := 7, taskPattern := "write tests".data,
     tierUsed := "primary", success := true }]

/-- A concrete session with two successful bugfix entries (tiers `primary`
then `critical`) and distractors. -/
def sC8 : ConversationMemory :=
  { session_id := 3, created_at := 0, last_updated := 4,
    entries :=
      [{ timestamp := 1, task_pattern := "bugfix", tier_used := "primary",
         success := true },
       { timestamp := 2, task_pattern := "bugfix", tier_used := "critical",
         success := true },
       { timestamp := 3, task_pattern := "bugfix", tier_used := "critical",
         success := false },
       { timestamp := 4, task_pattern := "general", tier_used := "critical",
         success := true }] }

/-- A memory state whose current session is `sC8`. -/
def memC8 : MemoryData :=
  { sessions := [sC8], current_session_id := some 3 }

/-- A rules configuration with no keyword rules, escalation disabled and
cost optimization enabled on the pattern "list files". -/
def cfgC2 : RulesConfig :=
  { keyword_rules := [],
    error_escalation :=
      { enabled := false, threshold := 3, window_minutes := 30,
        action := "escalate_one_tier" },
    cost_optimization := some
      { enabled := true, simple_task_patterns := ["list files".data],
        action := "suggest_lower_tier" } }

/-- A memory state with one successful general-category entry on tier
`critical` in the current session. -/
def memC2 : MemoryData :=
  { sessions :=
      [{ session_id := 0,
         entries := [{ timestamp := 0, task_pattern := "general",
                       tier_used := "critical", success := true }],
         created_at := 0, last_updated := 0 }],
    current_session_id := some 0 }

/-- A rules configuration whose single keyword rule has priority 300 (above
the fixed escalation priority 200), plus escalation enabled at threshold 1. -/
def cfgC3 : RulesConfig :=
  { keyword_rules :=
      [{ name := "big_rule", patterns := ["x".data], target2 := some "primary",
         target3 := some "tier2", priority := 300 }],
    error_escalation :=
      { enabled := true, threshold := 1, window_minutes := 30,
        action := "escalate_one_tier" },
    cost_optimization := none }

/-- A rules configuration with an ordinary keyword rule (priority 100,
below the escalation priority) and escalation enabled at threshold 1. -/
def cfgC3w : RulesConfig :=
  { keyword_rules :=
      [{ name := "architecture_keywords", patterns := ["architecture".data],
         target2 := some "critical", target3 := some "tier3", priority := 100 }],
    error_escalation :=
      { enabled := true, threshold := 1, window_minutes := 30,
        action := "escalate_one_tier" },
    cost_optimization := none }

/-- A rules configuration whose keyword rule targets `tier3` under the
2-tier strategy (the schema does not validate targets). -/
def cfgC4 : RulesConfig :=
  { keyword_rules :=
      [{ name := "weird_rule", patterns := ["x".data], target2 := some "tier3",
         target3 := none, priority := 100 }],
    error_escalation :=
      { enabled := false, threshold := 3, window_minutes := 30,
        action := "escalate_one_tier" },
    cost_optimization := none }

/-- A server context whose ledger spend (12 of a 10-dollar limit with a
100%→block threshold) blocks high-cost tiers for month `2026-10`. -/
def ctxC1 : ServerContext :=
  { state := { currentTier := "primary", strategy := Strategy.twoTier,
               autoMode := true },
    budget := some { monthly_limit_usd := 10,
                     alert_thresholds := [⟨100, "block_high_tier"⟩] },
    rules := none,
    ruleStrategy := Strategy.twoTier,
    errorWindow := [],
    costTracker := record emptyUsage
      { provider := "anthropic", model := "opus", tier := "critical",
        input_tokens := 1000, output_tokens := 200, cost_usd := 12 } 0 "2026-10",
    memoryTracker := freshMemory 100 10 }

/-- A plain server context whose memory's current session is `sC8`. -/
def ctxC9 : ServerContext :=
  { state := { currentTier := "primary", strategy := Strategy.twoTier,
               autoMode := true },
    budget := none,
    rules := none,
    ruleStrategy := Strategy.twoTier,
    errorWindow := [],
    costTracker := emptyUsage,
    memoryTracker := memC8 }

/-- A server context with a stored budget of 7 dollars and one custom
notify threshold. -/
def ctxC10 : ServerContext :=
  { state := { currentTier := "primary", strategy := Strategy.twoTier,
               autoMode := true },
    budget := some { monthly_limit_usd := 7,
                     alert_thresholds := [⟨42, "notify_user"⟩] },
    rules := none,
    ruleStrategy := Strategy.twoTier,
    errorWindow := [],
    costTracker := emptyUsage,
    memoryTracker := freshMemory 100 10 }

/-! ### Helper lemmas -/

theorem shiftUntil_eq_drop {γ : Type} (m : Nat) (l : List γ) :
    shiftUntil m l = l.drop (l.length - m) := by
  induction l with
  | nil => simp [shiftUntil]
  | cons x xs ih =>
    simp only [shiftUntil, List.length_cons]
    by_cases h : xs.length + 1 ≤ m
    · rw [if_pos h]
      have : xs.length + 1 - m = 0 := Nat.sub_eq_zero_of_le h
      simp [this]
    · rw [if_neg h]
      have hm : m ≤ xs.length := by omega
      have : xs.length + 1 - m = (xs.length - m) + 1 := by omega
      simp [this, ih]

theorem insertKeyed_perm {γ β : Type} [LinearOrder β] (key : γ → β) (x : γ)
    (l : List γ) : (insertKeyed key x l).Perm (x :: l) := by
  induction l with
  | nil => simp [insertKeyed]
  | cons y ys ih =>
    simp only [insertKeyed]
    by_cases h : key y ≤ key x
    · rw [if_pos h]
    · rw [if_neg h]
      exact (List.Perm.cons y ih).trans (List.Perm.swap x y ys)

theorem sortKeyed_perm {γ β : Type} [LinearOrder β] (key : γ → β) (l : List γ) :
    (sortKeyed key l).Perm l := by
  induction l with
  | nil => simp [sortKeyed]
  | cons x xs ih =>
    simp only [sortKeyed, List.foldr_cons]
    exact (insertKeyed_perm key x _).trans (List.Perm.cons x ih)

theorem insertKeyed_sorted {γ β : Type} [LinearOrder β] (key : γ → β) (x : γ)
    (l : List γ) (hl : l.Pairwise (fun a b => key b ≤ key a)) :
    (insertKeyed key x l).Pairwise (fun a b => key b ≤ key a) := by
  induction l with
  | nil => simp [insertKeyed]
  | cons y ys ih =>
    rcases hl with - | ⟨hy, hys⟩
    simp only [insertKeyed]
    by_cases h : key y ≤ key x
    · rw [if_pos h]
      refine List.Pairwise.cons ?_ (List.Pairwise.cons hy hys)
      intro b hb
      rcases List.mem_cons.mp hb with rfl | hb'
      · exact h
      · exact le_trans (hy b hb') h
    · rw [if_neg h]
      refine List.Pairwise.cons ?_ (ih hys)
      intro b hb
      rcases List.mem_cons.mp ((insertKeyed_perm key x ys).mem_iff.mp hb) with hbx | hb'
      · exact hbx ▸ le_of_not_le h
      · exact hy b hb'

theorem sortKeyed_sorted {γ β : Type} [LinearOrder β] (key : γ → β)
    (l : List γ) : (sortKeyed key l).Pairwise (fun a b => key b ≤ key a) := by
  induction l with
  | nil => simp [sortKeyed]
  | cons x xs ih => exact insertKeyed_sorted key x _ ih

/-- The head of a stable descending sort is the first element of the input
achieving the maximal key: there is a decomposition `l = pre ++ x :: post`
where everything in `pre` has a strictly smaller key and nothing in `l`
has a larger one. -/
theorem sortKeyed_head {γ β : Type} [LinearOrder β] (key : γ → β)
    (l : List γ) (x : γ) (rest : List γ) (h : sortKeyed key l = x :: rest) :
    ∃ pre post, l = pre ++ x :: post ∧ (∀ y ∈ pre, key y < key x) ∧
      (∀ y ∈ l, key y ≤ key x) := by
  induction l generalizing x rest with
  | nil => simp [sortKeyed] at h
  | cons a l' ih =>
    have h' : insertKeyed key a (sortKeyed key l') = x :: rest := by
      simpa [sortKeyed] using h
    rcases hs : sortKeyed key l' with _ | ⟨b, s'⟩
    · rw [hs] at h'
      simp only [insertKeyed] at h'
      injection h' with h1 h2
      subst h1
      have hl' : l' = [] := by
        have hp := sortKeyed_perm key l'
        rw [hs] at hp
        exact hp.symm.eq_nil
      subst hl'
      refine ⟨[], [], rfl, by simp, ?_⟩
      intro y hy
      rcases List.mem_cons.mp hy with hya | h0
      · exact le_of_eq (by rw [hya])
      · simp at h0
    · rw [hs] at h'
      obtain ⟨preb, postb, hdecomp, hpre, hall⟩ := ih b s' hs
      simp only [insertKeyed] at h'
      by_cases hba : key b ≤ key a
      · rw [if_pos hba] at h'
        injection h' with h1 h2
        subst h1
        refine ⟨[], l', rfl, by simp, ?_⟩
        intro y hy
        rcases List.mem_cons.mp hy with rfl | hy'
        · exact le_rfl
        · exact le_trans (hall y hy') hba
      · rw [if_neg hba] at h'
        injection h' with h1 h2
        subst h1
        refine ⟨a :: preb, postb, by simp [hdecomp], ?_, ?_⟩
        · intro y hy
          rcases List.mem_cons.mp hy with rfl | hy'
          · exact lt_of_not_le hba
          · exact hpre y hy'
        · intro y hy
          rcases List.mem_cons.mp hy with rfl | hy'
          · exact le_of_lt (lt_of_not_le hba)
          · exact hall y hy'

theorem lookupA_updAssoc_self {β : Type} (k : String) (d : β) (f : β → β)
    (l : List (String × β)) :
    lookupA (updAssoc k d f l) k = some (f ((lookupA l k).getD d)) := by
  induction l with
  | nil => simp [lookupA, updAssoc]
  | cons p ps ih =>
    by_cases h : p.1 = k
    · simp [lookupA, updAssoc, h, List.find?]
    · simp only [updAssoc, if_neg h]
      simpa [lookupA, List.find?, h] using ih

theorem lookupA_updAssoc_other {β : Type} (k k' : String) (d : β) (f : β → β)
    (l : List (String × β)) (hk : k' ≠ k) :
    lookupA (updAssoc k d f l) k' = lookupA l k' := by
  induction l with
  | nil => simp [lookupA, updAssoc, Ne.symm hk]
  | cons p ps ih =>
    by_cases h : p.1 = k
    · have h2 : ¬ (k = k') := fun hc => hk hc.symm
      have h3 : ¬ (p.1 = k') := by rw [h]; exact h2
      simp [lookupA, updAssoc, h, List.find?, h2, h3]
    · simp only [updAssoc, if_neg h]
      by_cases h' : p.1 = k'
      · simp [lookupA, List.find?, h']
      · simpa [lookupA, List.find?, h'] using ih

theorem updAssoc_of_not_mem {β : Type} (k : String) (d : β) (f : β → β)
    (l : List (String × β)) (h : k ∉ keysA l) :
    updAssoc k d f l = l ++ [(k, f d)] := by
  induction l with
  | nil => simp [updAssoc]
  | cons p ps ih =>
    simp only [keysA, List.map_cons, List.mem_cons, not_or] at h
    have hpk : ¬ (p.1 = k) := fun hc => h.1 hc.symm
    simp only [updAssoc, if_neg hpk, List.cons_append]
    rw [ih h.2]

theorem updAssoc_of_split {β : Type} (k : String) (d : β) (f : β → β)
    (l₁ l₂ : List (String × β)) (n : β) (h₁ : k ∉ keysA l₁) :
    updAssoc k d f (l₁ ++ (k, n) :: l₂) = l₁ ++ (k, f n) :: l₂ := by
  induction l₁ with
  | nil => simp [updAssoc]
  | cons p ps ih =>
    simp only [keysA, List.map_cons, List.mem_cons, not_or] at h₁
    have hpk : ¬ (p.1 = k) := fun hc => h₁.1 hc.symm
    simp only [List.cons_append, updAssoc, if_neg hpk, List.append_eq]
    rw [ih h₁.2]

theorem countsInv_nil : CountsInv [] [] := by
  constructor
  · intro q; simp
  · simp [keysA]

theorem countsInv_step (p : List String) (acc : List (String × Nat)) (k : String)
    (h : CountsInv p acc) : CountsInv (p ++ [k]) (updAssoc k 0 (· + 1) acc) := by
  obtain ⟨hmem, hord⟩ := h
  have hkeys : ∀ a ∈ keysA acc, a ∈ p := by
    intro a ha
    obtain ⟨q, hq, rfl⟩ := List.mem_map.mp ha
    exact ((hmem q).mp hq).1
  have hcnt : ∀ a : String, a ≠ k → (p ++ [k]).count a = p.count a := by
    intro a ha
    rw [List.count_append, List.count_singleton' a k,
      if_neg (fun hc => ha hc.symm), Nat.add_zero]
  by_cases hk : k ∈ p
  · -- the key is already present: the entry is bumped in place
    have hcntk : (p ++ [k]).count k = p.count k + 1 := by
      rw [List.count_append, List.count_singleton' k k, if_pos rfl]
    have hqin : (k, p.count k) ∈ acc := (hmem (k, p.count k)).mpr ⟨hk, rfl⟩
    obtain ⟨l₁, l₂, rfl⟩ := List.append_of_mem hqin
    have hkey_eq : keysA (l₁ ++ (k, p.count k) :: l₂) = keysA l₁ ++ k :: keysA l₂ := by
      simp [keysA]
    have hord' := hkey_eq ▸ hord
    obtain ⟨ho1, ho2, hocross⟩ := List.pairwise_append.mp hord'
    have hno : k ∉ keysA l₁ := by
      intro hc
      exact lt_irrefl _ (hocross k hc k (List.mem_cons_self k _))
    have hkeyne1 : ∀ q' ∈ l₁, Prod.fst q' ≠ k := by
      intro q' hq' hc
      exact hno (hc ▸ List.mem_map.mpr ⟨q', hq', rfl⟩)
    have hkeyne2 : ∀ q' ∈ l₂, Prod.fst q' ≠ k := by
      intro q' hq' hc
      have := List.rel_of_pairwise_cons ho2 (List.mem_map.mpr ⟨q', hq', rfl⟩)
      rw [hc] at this
      exact lt_irrefl _ this
    rw [updAssoc_of_split k 0 (· + 1) l₁ l₂ _ hno]
    constructor
    · rintro ⟨a, n⟩
      constructor
      · intro hq
        rcases List.mem_append.mp hq with hq1 | hq2
        · have hne := hkeyne1 (a, n) hq1
          have hold := (hmem (a, n)).mp (List.mem_append.mpr (Or.inl hq1))
          exact ⟨by simp [hold.1], by rw [hcnt a hne]; exact hold.2⟩
        · rcases List.mem_cons.mp hq2 with heq | hq2'
          · obtain ⟨rfl, rfl⟩ : a = k ∧ n = p.count k + 1 := by simpa using heq
            exact ⟨by simp, by rw [hcntk]⟩
          · have hne := hkeyne2 (a, n) hq2'
            have hold := (hmem (a, n)).mp
              (List.mem_append.mpr (Or.inr (List.mem_cons_of_mem _ hq2')))
            exact ⟨by simp [hold.1], by rw [hcnt a hne]; exact hold.2⟩
      · rintro ⟨hq1, hq2⟩
        by_cases hak : a = k
        · subst hak
          rw [hcntk] at hq2
          subst hq2
          exact List.mem_append.mpr (Or.inr (List.mem_cons_self _ _))
        · have hap : a ∈ p := by
            rcases List.mem_append.mp hq1 with h1 | h1
            · exact h1
            · exact absurd (by simpa using h1) hak
          have hold : (a, n) ∈ l₁ ++ (k, p.count k) :: l₂ :=
            (hmem (a, n)).mpr ⟨hap, by rw [← hcnt a hak]; exact hq2⟩
          rcases List.mem_append.mp hold with h1 | h1
          · exact List.mem_append.mpr (Or.inl h1)
          · rcases List.mem_cons.mp h1 with heq | h2
            · have hak' : a = k ∧ n = p.count k := by simpa using heq
              exact absurd hak'.1 hak
            · exact List.mem_append.mpr (Or.inr (List.mem_cons_of_mem _ h2))
    · have hkey_eq2 : keysA (l₁ ++ (k, p.count k + 1) :: l₂) =
          keysA l₁ ++ k :: keysA l₂ := by simp [keysA]
      rw [hkey_eq2, ← hkey_eq]
      refine hord.imp_of_mem ?_
      intro a b ha hb hab
      rw [List.indexOf_append_of_mem (hkeys a ha),
        List.indexOf_append_of_mem (hkeys b hb)]
      exact hab
  · -- fresh key: a new entry is appended at the end
    have hcntk : (p ++ [k]).count k = 1 := by
      rw [List.count_append, List.count_singleton' k k, if_pos rfl,
        List.count_eq_zero_of_not_mem hk]
    have hno : k ∉ keysA acc := fun hc => hk (hkeys k hc)
    rw [updAssoc_of_not_mem k 0 (· + 1) acc hno]
    constructor
    · rintro ⟨a, n⟩
      constructor
      · intro hq
        rcases List.mem_append.mp hq with hq1 | hq2
        · have hak : a ≠ k := by
            intro hc
            exact hno (hc ▸ List.mem_map.mpr ⟨(a, n), hq1, rfl⟩)
          have hold := (hmem (a, n)).mp hq1
          exact ⟨by simp [hold.1], by rw [hcnt a hak]; exact hold.2⟩
        · obtain ⟨rfl, rfl⟩ : a = k ∧ n = 1 := by simpa using hq2
          exact ⟨by simp, by rw [hcntk]⟩
      · rintro ⟨hq1, hq2⟩
        by_cases hak : a = k
        · subst hak
          rw [hcntk] at hq2
          subst hq2
          simp
        · have hap : a ∈ p := by
            rcases List.mem_append.mp hq1 with h1 | h1
            · exact h1
            · exact absurd (by simpa using h1) hak
          have : (a, n) ∈ acc :=
            (hmem (a, n)).mpr ⟨hap, by rw [← hcnt a hak]; exact hq2⟩
          exact List.mem_append.mpr (Or.inl this)
    · have hkeq : keysA (acc ++ [(k, 1)]) = keysA acc ++ [k] := by simp [keysA]
      rw [hkeq]
      apply List.pairwise_append.mpr
      refine ⟨?_, by simp, ?_⟩
      · refine hord.imp_of_mem ?_
        intro a b ha hb hab
        rw [List.indexOf_append_of_mem (hkeys a ha),
          List.indexOf_append_of_mem (hkeys b hb)]
        exact hab
      · intro a ha b hb
        have hb' : b = k := by simpa using hb
        subst hb'
        rw [List.indexOf_append_of_mem (hkeys a ha),
          List.indexOf_append_of_not_mem hk]
        simp only [List.indexOf_cons_self, Nat.add_zero]
        exact List.indexOf_lt_length.mpr (hkeys a ha)

theorem buildCounts_inv (l : List String) : CountsInv l (buildCounts l) := by
  have main : ∀ rest p acc, CountsInv p acc →
      CountsInv (p ++ rest) (rest.foldl (fun acc x => updAssoc x 0 (· + 1) acc) acc) := by
    intro rest
    induction rest with
    | nil => intro p acc h; simpa using h
    | cons x xs ih =>
      intro p acc h
      have := ih (p ++ [x]) _ (countsInv_step p acc x h)
      simpa [List.append_assoc] using this
  simpa using main l [] [] countsInv_nil

theorem tierCostSum_cons (q : String × TierAgg) (l : List (String × TierAgg)) :
    tierCostSum (q :: l) = q.2.cost + tierCostSum l := by
  simp [tierCostSum]

theorem tierTokSum_cons (q : String × TierAgg) (l : List (String × TierAgg)) :
    tierTokSum (q :: l) = q.2.tokens + tierTokSum l := by
  simp [tierTokSum]

theorem tierCostSum_updAssoc (k : String) (c : ℚ) (t : Int)
    (l : List (String × TierAgg)) :
    tierCostSum (updAssoc k ⟨0, 0⟩ (aggAdd c t) l) = tierCostSum l + c := by
  induction l with
  | nil => simp [tierCostSum, updAssoc, aggAdd]
  | cons p ps ih =>
    by_cases h : p.1 = k
    · simp only [updAssoc, if_pos h, tierCostSum_cons, aggAdd]
      ring
    · simp only [updAssoc, if_neg h, tierCostSum_cons, ih]
      ring

theorem tierTokSum_updAssoc (k : String) (c : ℚ) (t : Int)
    (l : List (String × TierAgg)) :
    tierTokSum (updAssoc k ⟨0, 0⟩ (aggAdd c t) l) = tierTokSum l + t := by
  induction l with
  | nil => simp [tierTokSum, updAssoc, aggAdd]
  | cons p ps ih =>
    by_cases h : p.1 = k
    · simp only [updAssoc, if_pos h, tierTokSum_cons, aggAdd]
      ring
    · simp only [updAssoc, if_neg h, tierTokSum_cons, ih]
      ring

theorem recordsCostSum_append (m : String) (rs : List UsageRecord) (r : UsageRecord) :
    recordsCostSum m (rs ++ [r])
      = recordsCostSum m rs + (if r.monthKey = m then r.cost_usd else 0) := by
  by_cases h : r.monthKey = m <;>
    simp [recordsCostSum, List.filter_append, h]

theorem recordsTokSum_append (m : String) (rs : List UsageRecord) (r : UsageRecord) :
    recordsTokSum m (rs ++ [r])
      = recordsTokSum m rs
        + (if r.monthKey = m then r.input_tokens + r.output_tokens else 0) := by
  by_cases h : r.monthKey = m <;>
    simp [recordsTokSum, List.filter_append, h]

theorem record_records (d : UsageData) (p : RecordParams) (now : Int) (mk : String) :
    (record d p now mk).records = d.records ++ [recordedOf p now mk] := rfl

theorem record_totals (d : UsageData) (p : RecordParams) (now : Int) (mk : String) :
    (record d p now mk).monthly_totals
      = updAssoc mk
          { total_cost := 0, total_tokens := 0, by_tier := [], by_model := [] }
          (monthUpd p) d.monthly_totals := rfl

theorem monthUpd_by_tier (p : RecordParams) (mo : MonthlyUsage) :
    (monthUpd p mo).by_tier
      = updAssoc p.tier ⟨0, 0⟩
          (aggAdd p.cost_usd (p.input_tokens + p.output_tokens)) mo.by_tier := rfl

theorem monthUpd_total_cost (p : RecordParams) (mo : MonthlyUsage) :
    (monthUpd p mo).total_cost = mo.total_cost + p.cost_usd := rfl

theorem monthUpd_total_tokens (p : RecordParams) (mo : MonthlyUsage) :
    (monthUpd p mo).total_tokens
      = mo.total_tokens + (p.input_tokens + p.output_tokens) := rfl

theorem recordsCostSum_of_filter_nil (m : String) (rs : List UsageRecord)
    (h : rs.filter (fun r => r.monthKey = m) = []) : recordsCostSum m rs = 0 := by
  rw [recordsCostSum, h]
  simp

theorem recordsTokSum_of_filter_nil (m : String) (rs : List UsageRecord)
    (h : rs.filter (fun r => r.monthKey = m) = []) : recordsTokSum m rs = 0 := by
  rw [recordsTokSum, h]
  simp

theorem ledgerInv_record (d : UsageData) (p : RecordParams) (now : Int)
    (mk : String) (h : LedgerInv d) : LedgerInv (record d p now mk) := by
  intro m
  have hmkey : (recordedOf p now mk).monthKey = mk := rfl
  have hcost : (recordedOf p now mk).cost_usd = p.cost_usd := rfl
  have htoks : (recordedOf p now mk).input_tokens + (recordedOf p now mk).output_tokens
      = p.input_tokens + p.output_tokens := rfl
  constructor
  · intro u hu
    rw [record_totals] at hu
    by_cases hm : m = mk
    · subst hm
      rw [lookupA_updAssoc_self] at hu
      obtain rfl : monthUpd p ((lookupA d.monthly_totals m).getD
          { total_cost := 0, total_tokens := 0, by_tier := [], by_model := [] }) = u :=
        Option.some.inj hu
      cases hold : lookupA d.monthly_totals m with
      | none =>
        have hfilter := (h m).2 hold
        simp only [Option.getD_none]
        refine ⟨?_, ?_, ?_, ?_⟩
        · rw [monthUpd_by_tier, monthUpd_total_cost, tierCostSum_updAssoc]
          simp [tierCostSum]
        · rw [monthUpd_by_tier, monthUpd_total_tokens, tierTokSum_updAssoc]
          simp [tierTokSum]
        · rw [monthUpd_total_cost, record_records, recordsCostSum_append,
            hmkey, if_pos rfl, hcost, recordsCostSum_of_filter_nil m _ hfilter]
        · rw [monthUpd_total_tokens, record_records, recordsTokSum_append,
            hmkey, if_pos rfl, htoks, recordsTokSum_of_filter_nil m _ hfilter]
      | some u₀ =>
        obtain ⟨h1, h2, h3, h4⟩ := (h m).1 u₀ hold
        simp only [Option.getD_some]
        refine ⟨?_, ?_, ?_, ?_⟩
        · rw [monthUpd_by_tier, monthUpd_total_cost, tierCostSum_updAssoc, h1]
        · rw [monthUpd_by_tier, monthUpd_total_tokens, tierTokSum_updAssoc, h2]
        · rw [monthUpd_total_cost, record_records, recordsCostSum_append,
            hmkey, if_pos rfl, hcost, h3]
        · rw [monthUpd_total_tokens, record_records, recordsTokSum_append,
            hmkey, if_pos rfl, htoks, h4]
    · rw [lookupA_updAssoc_other _ _ _ _ _ hm] at hu
      obtain ⟨h1, h2, h3, h4⟩ := (h m).1 u hu
      have hne : ¬ ((recordedOf p now mk).monthKey = m) := by
        rw [hmkey]
        exact fun hc => hm hc.symm
      refine ⟨h1, h2, ?_, ?_⟩
      · rw [record_records, recordsCostSum_append, if_neg hne, add_zero, h3]
      · rw [record_records, recordsTokSum_append, if_neg hne, add_zero, h4]
  · intro hnone
    rw [record_totals] at hnone
    by_cases hm : m = mk
    · subst hm
      rw [lookupA_updAssoc_self] at hnone
      exact absurd hnone (by simp)
    · rw [lookupA_updAssoc_other _ _ _ _ _ hm] at hnone
      have hfilter := (h m).2 hnone
      have hne : ¬ ((recordedOf p now mk).monthKey = m) := by
        rw [hmkey]
        exact fun hc => hm hc.symm
      rw [record_records, List.filter_append, hfilter]
      simp [hne]

theorem ledgerInv_empty : LedgerInv emptyUsage := by
  intro m
  constructor
  · intro u hu
    simp [lookupA, emptyUsage] at hu
  · intro _
    simp [emptyUsage]

theorem ledgerInv_applyRecords (calls : List (RecordParams × Int × String))
    (d : UsageData) (hd : LedgerInv d) : LedgerInv (applyRecords d calls) := by
  induction calls generalizing d with
  | nil => simpa [applyRecords] using hd
  | cons c cs ih =>
    have hstep := ledgerInv_record d c.1 c.2.1 c.2.2 hd
    simpa [applyRecords] using ih _ hstep

/-- C6: starting from an empty ledger, after any sequence of `record` calls,
every stored period's totals satisfy: the per-tier costs sum to the period's
`total_cost`, the per-tier tokens sum to its `total_tokens`, and those totals
equal the cost/token sums of exactly the recorded events of that period
(each record reflected exactly once). -/
theorem ledger_totals_consistent (calls : List (RecordParams × Int × String))
    (m : String) (u : MonthlyUsage)
    (hu : lookupA (applyRecords emptyUsage calls).monthly_totals m = some u) :
    tierCostSum u.by_tier = u.total_cost ∧
    tierTokSum u.by_tier = u.total_tokens ∧
    u.total_cost = recordsCostSum m (applyRecords emptyUsage calls).records ∧
    u.total_tokens = recordsTokSum m (applyRecords emptyUsage calls).records :=
  (ledgerInv_applyRecords calls emptyUsage ledgerInv_empty m).1 u hu

/-- C6 witness: three concrete `record` calls (two in one month, one in
another), evaluated, satisfy the round-trip property. -/
theorem ledger_totals_consistent_witness :
    lookupA (applyRecords emptyUsage
        [({ provider := "anthropic", model := "opus", tier := "critical",
            input_tokens := 100, output_tokens := 50, cost_usd := 1 }, 0, "2026-10"),
         ({ provider := "anthropic", model := "sonnet", tier := "primary",
            input_tokens := 10, output_tokens := 5, cost_usd := 1/4 }, 1, "2026-10"),
         ({ provider := "zhipu", model := "glm", tier := "critical",
            input_tokens := 7, output_tokens := 3, cost_usd := 2 }, 2, "2026-11")]).monthly_totals
      "2026-10"
      = some { total_cost := 5/4, total_tokens := 165,
               by_tier := [("critical", ⟨1, 150⟩), ("primary", ⟨1/4, 15⟩)],
               by_model := [("anthropic:opus", ⟨1, 150⟩),
                            ("anthropic:sonnet", ⟨1/4, 15⟩)] } ∧
    (tierCostSum [("critical", (⟨1, 150⟩ : TierAgg)), ("primary", ⟨1/4, 15⟩)] = 5/4 ∧
     tierTokSum [("critical", (⟨1, 150⟩ : TierAgg)), ("primary", ⟨1/4, 15⟩)] = 165 ∧
     (5/4 : ℚ) = recordsCostSum "2026-10" (applyRecords emptyUsage
        [({ provider := "anthropic", model := "opus", tier := "critical",
            input_tokens := 100, output_tokens := 50, cost_usd := 1 }, 0, "2026-10"),
         ({ provider := "anthropic", model := "sonnet", tier := "primary",
            input_tokens := 10, output_tokens := 5, cost_usd := 1/4 }, 1, "2026-10"),
         ({ provider := "zhipu", model := "glm", tier := "critical",
            input_tokens := 7, output_tokens := 3, cost_usd := 2 }, 2, "2026-11")]).records ∧
     (165 : ℤ) = recordsTokSum "2026-10" (applyRecords emptyUsage
        [({ provider := "anthropic", model := "opus", tier := "critical",
            input_tokens := 100, output_tokens := 50, cost_usd := 1 }, 0, "2026-10"),
         ({ provider := "anthropic", model := "sonnet", tier := "primary",
            input_tokens := 10, output_tokens := 5, cost_usd := 1/4 }, 1, "2026-10"),
         ({ provider := "zhipu", model := "glm", tier := "critical",
            input_tokens := 7, output_tokens := 3, cost_usd := 2 }, 2, "2026-11")]).records) := by
  refine ⟨by with_unfolding_all rfl, ?_⟩
  have h := ledger_totals_consistent
    [({ provider := "anthropic", model := "opus", tier := "critical",
        input_tokens := 100, output_tokens := 50, cost_usd := 1 }, 0, "2026-10"),
     ({ provider := "anthropic", model := "sonnet", tier := "primary",
        input_tokens := 10, output_tokens := 5, cost_usd := 1/4 }, 1, "2026-10"),
     ({ provider := "zhipu", model := "glm", tier := "critical",
        input_tokens := 7, output_tokens := 3, cost_usd := 2 }, 2, "2026-11")]
    "2026-10"
    { total_cost := 5/4, total_tokens := 165,
      by_tier := [("critical", ⟨1, 150⟩), ("primary", ⟨1/4, 15⟩)],
      by_model := [("anthropic:opus", ⟨1, 150⟩), ("anthropic:sonnet", ⟨1/4, 15⟩)] }
    (by with_unfolding_all rfl)
  exact h

theorem takeLast_snoc {γ : Type} (L : List γ) (e : γ) (m : Nat) :
    shiftUntil m (L.drop (L.length - m) ++ [e])
      = (L ++ [e]).drop ((L ++ [e]).length - m) := by
  rw [shiftUntil_eq_drop]
  by_cases hLm : L.length ≤ m
  · rw [Nat.sub_eq_zero_of_le hLm, List.drop_zero]
  · push_neg at hLm
    have hdroplen : (L.drop (L.length - m)).length = m := by
      rw [List.length_drop]
      omega
    have e1 : (L.drop (L.length - m) ++ [e]).length - m = 1 := by
      rw [List.length_append, hdroplen]
      simp
    have e2 : (L ++ [e]).length - m = (L.length - m) + 1 := by
      simp only [List.length_append, List.length_singleton]
      omega
    rw [e1, e2, List.drop_append_eq_append_drop, List.drop_drop,
      List.drop_append_eq_append_drop]
    have d12 : 1 - (L.drop (L.length - m)).length = ((L.length - m) + 1) - L.length := by
      rw [hdroplen]
      omega
    rw [d12]

theorem applyRecordCalls_single (maxE maxS : Nat) (calls : List RecordCall) :
    ∀ (sid : Nat) (ca lu : Int) (H : List MemoryEntry),
    ∃ lu' : Int,
      applyRecordCalls
        { sessions := [⟨sid, H.drop (H.length - maxE), ca, lu⟩],
          current_session_id := some sid,
          maxEntriesPerSession := maxE, maxSessions := maxS } calls
      = { sessions := [⟨sid, (H ++ calls.map mkEntry).drop
            ((H ++ calls.map mkEntry).length - maxE), ca, lu'⟩],
          current_session_id := some sid,
          maxEntriesPerSession := maxE, maxSessions := maxS } := by
  induction calls with
  | nil =>
    intro sid ca lu H
    exact ⟨lu, by simp [applyRecordCalls]⟩
  | cons c cs ih =>
    intro sid ca lu H
    have hcur : getCurrentSession
        { sessions := [⟨sid, H.drop (H.length - maxE), ca, lu⟩],
          current_session_id := some sid,
          maxEntriesPerSession := maxE, maxSessions := maxS }
        = some ⟨sid, H.drop (H.length - maxE), ca, lu⟩ := by
      simp [getCurrentSession, List.find?]
    have hstep : recordTask
        { sessions := [⟨sid, H.drop (H.length - maxE), ca, lu⟩],
          current_session_id := some sid,
          maxEntriesPerSession := maxE, maxSessions := maxS }
        c.now c.freshId c.taskPattern c.tierUsed c.success c.context
      = { sessions := [⟨sid, (H ++ [mkEntry c]).drop ((H ++ [mkEntry c]).length - maxE),
            ca, c.now⟩],
          current_session_id := some sid,
          maxEntriesPerSession := maxE, maxSessions := maxS } := by
      simp only [recordTask, hcur]
      simp only [updateSessionEntries, if_pos]
      rw [← takeLast_snoc]
      rfl
    obtain ⟨lu', hlu⟩ := ih sid ca c.now (H ++ [mkEntry c])
    refine ⟨lu', ?_⟩
    have hunfold : applyRecordCalls
        { sessions := [⟨sid, H.drop (H.length - maxE), ca, lu⟩],
          current_session_id := some sid,
          maxEntriesPerSession := maxE, maxSessions := maxS } (c :: cs)
        = applyRecordCalls (recordTask
            { sessions := [⟨sid, H.drop (H.length - maxE), ca, lu⟩],
              current_session_id := some sid,
              maxEntriesPerSession := maxE, maxSessions := maxS }
            c.now c.freshId c.taskPattern c.tierUsed c.success c.context) cs := rfl
    rw [hunfold, hstep, hlu]
    simp [List.append_assoc]

/-- C7: for every sequence of `recordTask` calls from a freshly constructed
tracker (session bound ≥ 1), the current session holds exactly the most
recent `maxEntriesPerSession`-many recorded entries in recording order
(oldest dropped first) and never more; the retained session list never
exceeds `maxSessions`; and `startNewSession` always retains only the newest
`maxSessions` sessions, discarding oldest first. -/
theorem memory_eviction (maxE maxS : Nat) (hS : 1 ≤ maxS) (calls : List RecordCall) :
    (∃ s, getCurrentSession (applyRecordCalls (freshMemory maxE maxS) calls) = some s ∧
        s.entries = (calls.map mkEntry).drop (calls.length - maxE) ∧
        s.entries.length ≤ maxE) ∧
    (applyRecordCalls (freshMemory maxE maxS) calls).sessions.length ≤ maxS ∧
    (∀ (md : MemoryData) (id : Nat) (ts : Int),
      (startNewSession md id ts).sessions
        = (md.sessions ++ [emptySession id ts]).drop
            ((md.sessions.length + 1) - md.maxSessions)) := by
  have hfresh : freshMemory maxE maxS
      = { sessions := [⟨0, ([] : List MemoryEntry).drop
            (([] : List MemoryEntry).length - maxE), 0, 0⟩],
          current_session_id := some 0,
          maxEntriesPerSession := maxE, maxSessions := maxS } := by
    simp [freshMemory, startNewSession, shiftUntil, hS]
  obtain ⟨lu', h⟩ := applyRecordCalls_single maxE maxS calls 0 0 0 []
  rw [hfresh, h]
  refine ⟨⟨⟨0, (calls.map mkEntry).drop (calls.length - maxE), 0, lu'⟩, ?_, rfl, ?_⟩,
      by simpa using hS, ?_⟩
  · simp [getCurrentSession, List.find?]
  · simp only [List.length_drop, List.length_map]
    omega
  · intro md id ts
    simp [startNewSession, shiftUntil_eq_drop, emptySession]

/-- C7 witness: three concrete calls against bounds `maxE = 2`, `maxS = 1`
retain only the two newest entries and a single session. -/
theorem memory_eviction_witness :
    1 ≤ 1 ∧
    ((∃ s, getCurrentSession (applyRecordCalls (freshMemory 2 1) exRecordCalls)
          = some s ∧
        s.entries = (exRecordCalls.map mkEntry).drop (exRecordCalls.length - 2) ∧
        s.entries.length ≤ 2) ∧
    (applyRecordCalls (freshMemory 2 1) exRecordCalls).sessions.length ≤ 1 ∧
    (∀ (md : MemoryData) (id : Nat) (ts : Int),
      (startNewSession md id ts).sessions
        = (md.sessions ++ [emptySession id ts]).drop
            ((md.sessions.length + 1) - md.maxSessions))) :=
  ⟨by decide, memory_eviction 2 1 (by decide) exRecordCalls⟩

/-- C8: with a current session present, `getRecommendedTier` returns none
iff the session has no successful entry of the task's category; any returned
tier occurs among the successful same-category entries, has maximal
occurrence count there, and ties go to the tier first encountered in entry
order; and the result depends only on the current session (no other session
is consulted). -/
theorem getRecommendedTier_spec (md : MemoryData) (task : Str)
    (s : ConversationMemory) (hcur : getCurrentSession md = some s) :
    (getRecommendedTier md task = none ↔ relevantFor s task = []) ∧
    (∀ t, getRecommendedTier md task = some t →
      t ∈ tiersOf (relevantFor s task) ∧
      (∀ u, (tiersOf (relevantFor s task)).count u
          ≤ (tiersOf (relevantFor s task)).count t) ∧
      (∀ u, (tiersOf (relevantFor s task)).count u
            = (tiersOf (relevantFor s task)).count t →
        (tiersOf (relevantFor s task)).indexOf t
          ≤ (tiersOf (relevantFor s task)).indexOf u)) ∧
    (∀ md₂, getCurrentSession md₂ = some s →
      getRecommendedTier md₂ task = getRecommendedTier md task) := by
  have hloc : ∀ md₂, getCurrentSession md₂ = some s →
      getRecommendedTier md₂ task = getRecommendedTier md task := by
    intro md₂ h₂
    simp only [getRecommendedTier, hcur, h₂]
  have hrel : getRecommendedTier md task
      = (if (relevantFor s task).isEmpty then none
         else
           match (sortKeyed (fun q : String × Nat => q.2)
               (buildCounts (tiersOf (relevantFor s task)))).head? with
           | some q => some q.1
           | none => none) := by
    simp only [getRecommendedTier, hcur]
    rfl
  obtain ⟨hmem, hord⟩ := buildCounts_inv (tiersOf (relevantFor s task))
  refine ⟨?_, ?_, hloc⟩
  · -- none iff no successful same-category entry
    rw [hrel]
    by_cases hempty : (relevantFor s task).isEmpty
    · simp [hempty, List.isEmpty_iff.mp hempty]
    · have hnil : ¬ relevantFor s task = [] := fun hc => hempty (by simp [hc])
      rw [if_neg hempty]
      rcases hs : sortKeyed (fun q : String × Nat => q.2)
          (buildCounts (tiersOf (relevantFor s task))) with _ | ⟨q, rest⟩
      · exfalso
        rcases hx : relevantFor s task with _ | ⟨e, es⟩
        · exact hnil hx
        · have hxin : e.tier_used ∈ tiersOf (relevantFor s task) := by
            rw [hx]
            exact List.mem_map.mpr ⟨e, List.mem_cons_self e es, rfl⟩
          have hin := (hmem (e.tier_used,
            (tiersOf (relevantFor s task)).count e.tier_used)).mpr ⟨hxin, rfl⟩
          have hs2 := (sortKeyed_perm (fun q : String × Nat => q.2)
            (buildCounts (tiersOf (relevantFor s task)))).symm.mem_iff.mp hin
          rw [hs] at hs2
          cases hs2
      · simp only [List.head?]
        constructor
        · intro hc
          cases hc
        · intro hc
          exact absurd hc hnil
  · -- the returned tier is the first-encountered most frequent one
    intro t ht
    rw [hrel] at ht
    by_cases hempty : (relevantFor s task).isEmpty
    · rw [if_pos hempty] at ht
      cases ht
    · rw [if_neg hempty] at ht
      rcases hs : sortKeyed (fun q : String × Nat => q.2)
          (buildCounts (tiersOf (relevantFor s task))) with _ | ⟨q, rest⟩
      · rw [hs] at ht
        cases ht
      · rw [hs] at ht
        simp only [List.head?] at ht
        obtain rfl : q.1 = t := Option.some.inj ht
        obtain ⟨pre, post, hdec, hpre, hall⟩ := sortKeyed_head _ _ _ _ hs
        have hqmem : q ∈ buildCounts (tiersOf (relevantFor s task)) := by
          rw [hdec]
          exact List.mem_append.mpr (Or.inr (List.mem_cons_self q post))
        have hq := (hmem q).mp hqmem
        have hmax : ∀ u, (tiersOf (relevantFor s task)).count u
            ≤ (tiersOf (relevantFor s task)).count q.1 := by
          intro u
          by_cases hu : u ∈ tiersOf (relevantFor s task)
          · have hin := (hmem (u, (tiersOf (relevantFor s task)).count u)).mpr ⟨hu, rfl⟩
            have hle := hall _ hin
            simpa [← hq.2] using hle
          · rw [List.count_eq_zero_of_not_mem hu]
            exact Nat.zero_le _
        refine ⟨hq.1, hmax, ?_⟩
        intro u hcnt
        by_cases huq : u = q.1
        · rw [huq]
        · by_cases hu : u ∈ tiersOf (relevantFor s task)
          · have hin := (hmem (u, (tiersOf (relevantFor s task)).count u)).mpr ⟨hu, rfl⟩
            rw [hdec] at hin
            rcases List.mem_append.mp hin with hinpre | hinq
            · exfalso
              have hlt := hpre _ hinpre
              rw [hcnt] at hlt
              simp only [← hq.2] at hlt
              exact lt_irrefl _ hlt
            · rcases List.mem_cons.mp hinq with heq | hinpost
              · exact absurd (congrArg Prod.fst heq) huq
              · have hkeys : keysA (pre ++ q :: post)
                    = keysA pre ++ q.1 :: keysA post := by simp [keysA]
                have hord' := hord
                rw [hdec, hkeys] at hord'
                have hcons := (List.pairwise_append.mp hord').2.1
                have hrel2 := List.rel_of_pairwise_cons hcons
                  (List.mem_map.mpr ⟨(u, (tiersOf (relevantFor s task)).count u),
                    hinpost, rfl⟩)
                exact le_of_lt hrel2
          · exfalso
            rw [List.count_eq_zero_of_not_mem hu] at hcnt
            have hpos : 0 < (tiersOf (relevantFor s task)).count q.1 :=
              List.count_pos_iff.mpr hq.1
            omega

/-- C8 witness: on a session holding two successful bugfix entries (tiers
`primary` then `critical`, one each) the recommendation for "fix it"
satisfies the specification's none-iff, membership, maximality, tie-break
and locality clauses. -/
theorem getRecommendedTier_spec_witness :
    getCurrentSession memC8 = some sC8 ∧
    ((getRecommendedTier memC8 "fix it".data = none
        ↔ relevantFor sC8 "fix it".data = []) ∧
    (∀ t, getRecommendedTier memC8 "fix it".data = some t →
      t ∈ tiersOf (relevantFor sC8 "fix it".data) ∧
      (∀ u, (tiersOf (relevantFor sC8 "fix it".data)).count u
          ≤ (tiersOf (relevantFor sC8 "fix it".data)).count t) ∧
      (∀ u, (tiersOf (relevantFor sC8 "fix it".data)).count u
            = (tiersOf (relevantFor sC8 "fix it".data)).count t →
        (tiersOf (relevantFor sC8 "fix it".data)).indexOf t
          ≤ (tiersOf (relevantFor sC8 "fix it".data)).indexOf u)) ∧
    (∀ md₂, getCurrentSession md₂ = some sC8 →
      getRecommendedTier md₂ "fix it".data
        = getRecommendedTier memC8 "fix it".data)) :=
  ⟨rfl, getRecommendedTier_spec memC8 "fix it".data sC8 rfl⟩

theorem keywordMatches_mem (rules : List KeywordRule) (s : Strategy) (tl : Str)
    (m : RuleMatch) (h : m ∈ keywordMatches rules s tl) :
    ∃ r ∈ rules, m.priority = r.priority ∧ targetFor r s = some m.target_tier := by
  obtain ⟨r, hr, hfr⟩ := List.mem_filterMap.mp h
  refine ⟨r, hr, ?_⟩
  split at hfr
  next => cases hfr
  next p hfind =>
    split at hfr
    next => cases hfr
    next tt htf =>
      obtain rfl := Option.some.inj hfr
      exact ⟨rfl, by rw [htf]⟩

theorem escalationMatch_some (cfg : RulesConfig) (s : Strategy) (w : List Int)
    (now : Int) (curr : String) (m : RuleMatch)
    (h : escalationMatch cfg s w now curr = some m) :
    ∃ t, getEscalatedTier s curr = some t ∧ m.target_tier = t ∧
      m.priority = 200 ∧ m.rule_name = "error_escalation" := by
  unfold escalationMatch at h
  split at h
  · split at h
    next t ht =>
      dsimp only at h
      split at h
      · obtain rfl := Option.some.inj h
        exact ⟨t, ht, rfl, rfl, rfl⟩
      · cases h
    next ht =>
      dsimp only at h
      split at h
      · cases h
      · cases h
  · cases h

theorem costOptMatch_some (cfg : RulesConfig) (s : Strategy) (tl : Str)
    (m : RuleMatch) (h : costOptMatch cfg s tl = some m) :
    m.target_tier = (if s = Strategy.twoTier then "primary" else "tier1") ∧
    m.priority = 10 := by
  unfold costOptMatch at h
  split at h
  next => cases h
  next co =>
    split at h
    · split at h
      next p hfind =>
        obtain rfl := Option.some.inj h
        exact ⟨rfl, rfl⟩
      next => cases h
    · cases h

theorem memoryMatch_some (s : Strategy) (mem : Option MemoryData) (task : Str)
    (m : RuleMatch) (h : memoryMatch s mem task = some m) :
    isValidTier s m.target_tier = true ∧ m.priority = 30 := by
  unfold memoryMatch at h
  split at h
  next => cases h
  next md =>
    split at h
    next r hr =>
      split at h
      next hvalid =>
        obtain rfl := Option.some.inj h
        exact ⟨hvalid, rfl⟩
      next => cases h
    next => cases h

theorem getEscalatedTier_valid (s : Strategy) (c t : String)
    (h : getEscalatedTier s c = some t) : isValidTier s t = true := by
  cases s
  · simp only [getEscalatedTier] at h
    split at h
    · obtain rfl := Option.some.inj h
      rfl
    · cases h
  · simp only [getEscalatedTier] at h
    split at h
    · obtain rfl := Option.some.inj h
      rfl
    · split at h
      · obtain rfl := Option.some.inj h
        rfl
      · cases h

theorem mem_ite_toList {α : Type} (c : Prop) [Decidable c] (o : Option α) (m : α)
    (h : m ∈ (if c then o.toList else [])) : o = some m := by
  by_cases hc : c
  · rw [if_pos hc] at h
    exact Option.mem_def.mp (Option.mem_toList.mp h)
  · rw [if_neg hc] at h
    cases h

theorem classifyMatches_mem (cfg : RulesConfig) (s : Strategy) (w : List Int)
    (now : Int) (mem : Option MemoryData) (task : Str) (curr : String)
    (m : RuleMatch) (h : m ∈ classifyMatches cfg s w now mem task curr) :
    m ∈ keywordMatches cfg.keyword_rules s (lowerStr task) ∨
    escalationMatch cfg s w now curr = some m ∨
    costOptMatch cfg s (lowerStr task) = some m ∨
    memoryMatch s mem task = some m := by
  simp only [classifyMatches] at h
  rcases List.mem_append.mp h with h2 | h3
  · rcases List.mem_append.mp h2 with h1 | hrest
    · rcases List.mem_append.mp h1 with hkw | hesc
      · exact Or.inl hkw
      · exact Or.inr (Or.inl (Option.mem_def.mp (Option.mem_toList.mp hesc)))
    · exact Or.inr (Or.inr (Or.inl (mem_ite_toList _ _ _ hrest)))
  · exact Or.inr (Or.inr (Or.inr (mem_ite_toList _ _ _ h3)))

theorem applySwitch_ok (ctx : ServerContext) (task : Str) (tt r : String)
    (as : Bool) (now : Int) (f1 f2 : Nat) :
    ∃ sw ctx', applySwitch ctx task tt r as now f1 f2
      = (OrchOutcome.ok tt r sw, ctx') := by
  unfold applySwitch
  dsimp only
  split
  · exact ⟨true, _, rfl⟩
  · exact ⟨false, _, rfl⟩

theorem getCurrentSession_update (md : MemoryData) (s : ConversationMemory)
    (e : MemoryEntry) (maxE : Nat) (hcur : getCurrentSession md = some s) :
    getCurrentSession
        { md with sessions := updateSessionEntries s.session_id e maxE md.sessions }
      = some (bumpSession s e maxE) := by
  unfold getCurrentSession at hcur ⊢
  cases hid : md.current_session_id with
  | none =>
    rw [hid] at hcur
    cases hcur
  | some id =>
    rw [hid] at hcur
    dsimp only at hcur ⊢
    have hsid : s.session_id = id := by
      have := List.find?_some hcur
      simpa using this
    subst hsid
    generalize hl : md.sessions = l at hcur
    clear hl hid
    induction l with
    | nil => cases hcur
    | cons x xs ih =>
      by_cases hx : x.session_id = s.session_id
      · obtain rfl : x = s := by
          rw [List.find?_cons_of_pos _ (by simpa using hx)] at hcur
          exact Option.some.inj hcur
        simp only [updateSessionEntries, eq_self_iff_true, if_true]
        rw [List.find?_cons_of_pos _ (by simp)]
        rfl
      · rw [List.find?_cons_of_neg _ (by simpa using hx)] at hcur
        simp only [updateSessionEntries, if_neg hx]
        rw [List.find?_cons_of_neg _ (by simpa using hx)]
        exact ih hcur

/-- C1: in every orchestrate call whose tier resolves from a (valid) forced
tier or from classification, if the ledger reports blocking and the
resolved tier is high-cost, the returned outcome is a non-failing result
carrying the strategy's lowest tier and a budget-fallback reason. -/
theorem orchestrate_budget_gate (ctx : ServerContext) (task : Str)
    (forceTier : Option String) (autoSwitch : Bool) (now : Int)
    (monthKey : String) (fid1 fid2 : Nat) (t : String)
    (htask : isBlankTask task = false)
    (hblocked : (getStatus ctx.costTracker (orchBudgetParam ctx) monthKey).is_blocked
      = true)
    (hres : resolvedTier ctx task forceTier now = some t)
    (hhigh : highCostTiers.contains t = true)
    (hvalid : ∀ ft, forceTier = some ft → isValidTier ctx.ruleStrategy ft = true) :
    ∃ r sw ctx',
      handleOrchestrate ctx task forceTier autoSwitch now monthKey fid1 fid2
        = (OrchOutcome.ok (getDefaultTier ctx.state.strategy) r sw, ctx') ∧
      (r = "budget limit - forced fallback" ∨ ∃ p, r = p ++ " (budget blocked)") := by
  have hfb : (if ctx.state.strategy = Strategy.twoTier then "primary" else "tier1")
      = getDefaultTier ctx.state.strategy := by
    cases hst : ctx.state.strategy <;> simp [getDefaultTier, hst]
  unfold handleOrchestrate
  rw [if_neg (by simp [htask])]
  dsimp only
  cases forceTier with
  | some ft =>
    obtain rfl : ft = t := by simpa [resolvedTier] using hres
    have hv : isValidTier ctx.ruleStrategy ft = true := hvalid ft rfl
    show ∃ r sw ctx',
      (if (!isValidTier ctx.ruleStrategy ft) = true then
        (OrchOutcome.invalidTier ft, ctx)
       else if ((getStatus ctx.costTracker (orchBudgetParam ctx) monthKey).is_blocked
           && highCostTiers.contains ft) = true then
         applySwitch ctx task
           (if ctx.state.strategy = Strategy.twoTier then "primary" else "tier1")
           "budget limit - forced fallback" autoSwitch now fid1 fid2
       else applySwitch ctx task ft "forced by user" autoSwitch now fid1 fid2)
        = (OrchOutcome.ok (getDefaultTier ctx.state.strategy) r sw, ctx') ∧
      (r = "budget limit - forced fallback" ∨ ∃ p, r = p ++ " (budget blocked)")
    rw [hv]
    simp only [Bool.not_true, Bool.false_eq_true, if_false]
    rw [hblocked, hhigh]
    simp only [Bool.and_self, if_true]
    rw [hfb]
    obtain ⟨sw, ctx', happ⟩ := applySwitch_ok ctx task
      (getDefaultTier ctx.state.strategy) "budget limit - forced fallback"
      autoSwitch now fid1 fid2
    exact ⟨_, sw, ctx', happ, Or.inl rfl⟩
  | none =>
    obtain ⟨mm, hmm, htar⟩ : ∃ mm, classifyTask ctx.rules ctx.ruleStrategy
        ctx.errorWindow now (some ctx.memoryTracker) task ctx.state.currentTier
          = some mm ∧ mm.target_tier = t := by
      simpa [resolvedTier, Option.map_eq_some'] using hres
    show ∃ r sw ctx',
      (match classifyTask ctx.rules ctx.ruleStrategy ctx.errorWindow now
          (some ctx.memoryTracker) task ctx.state.currentTier with
       | some ruleMatch =>
         if ((getStatus ctx.costTracker (orchBudgetParam ctx) monthKey).is_blocked
             && highCostTiers.contains ruleMatch.target_tier) = true then
           applySwitch ctx task
             (if ctx.state.strategy = Strategy.twoTier then "primary" else "tier1")
             (ruleMatch.reason ++ " (budget blocked)") autoSwitch now fid1 fid2
         else applySwitch ctx task ruleMatch.target_tier ruleMatch.reason
           autoSwitch now fid1 fid2
       | none => applySwitch ctx task ctx.state.currentTier "no rule match"
           autoSwitch now fid1 fid2)
        = (OrchOutcome.ok (getDefaultTier ctx.state.strategy) r sw, ctx') ∧
      (r = "budget limit - forced fallback" ∨ ∃ p, r = p ++ " (budget blocked)")
    rw [hmm]
    show ∃ r sw ctx',
      (if ((getStatus ctx.costTracker (orchBudgetParam ctx) monthKey).is_blocked
           && highCostTiers.contains mm.target_tier) = true then
         applySwitch ctx task
           (if ctx.state.strategy = Strategy.twoTier then "primary" else "tier1")
           (mm.reason ++ " (budget blocked)") autoSwitch now fid1 fid2
       else applySwitch ctx task mm.target_tier mm.reason autoSwitch now fid1 fid2)
        = (OrchOutcome.ok (getDefaultTier ctx.state.strategy) r sw, ctx') ∧
      (r = "budget limit - forced fallback" ∨ ∃ p, r = p ++ " (budget blocked)")
    rw [hblocked, htar, hhigh]
    simp only [Bool.and_self, if_true]
    rw [hfb]
    obtain ⟨sw, ctx', happ⟩ := applySwitch_ok ctx task
      (getDefaultTier ctx.state.strategy) (mm.reason ++ " (budget blocked)")
      autoSwitch now fid1 fid2
    exact ⟨_, sw, ctx', happ, Or.inr ⟨mm.reason, rfl⟩⟩

/-- C1 witness: a blocked ledger (spend 12 of a 10-dollar limit with a
100%→block threshold) and a forced `critical` tier produce the 2-tier
fallback `primary` with the budget reason. -/
theorem orchestrate_budget_gate_witness :
    isBlankTask "design the security model".data = false ∧
    (getStatus ctxC1.costTracker (orchBudgetParam ctxC1) "2026-10").is_blocked
      = true ∧
    resolvedTier ctxC1 "design the security model".data (some "critical") 0
      = some "critical" ∧
    highCostTiers.contains "critical" = true ∧
    (∃ r sw ctx',
      handleOrchestrate ctxC1 "design the security model".data (some "critical")
          true 0 "2026-10" 20 21
        = (OrchOutcome.ok (getDefaultTier ctxC1.state.strategy) r sw, ctx') ∧
      (r = "budget limit - forced fallback" ∨ ∃ p, r = p ++ " (budget blocked)")) :=
  ⟨rfl, by with_unfolding_all rfl, rfl, rfl,
    orchestrate_budget_gate ctxC1 "design the security model".data
      (some "critical") true 0 "2026-10" 20 21 "critical" rfl
      (by with_unfolding_all rfl) rfl rfl
      (fun ft hft => by cases Option.some.inj hft; rfl)⟩

/-- C9: `handleSwitchTier` with a tier that is invalid for the active
strategy reports the invalid-tier condition and leaves the whole context
(dispatcher state and memory included) unchanged; with a valid tier it sets
`currentTier` to that tier, changes nothing else of the dispatcher state,
and appends exactly one successful tier-switch entry to the current
session. -/
theorem switch_tier_spec (ctx : ServerContext) (tier : String)
    (reason : Option String) (now : Int) (freshId : Nat)
    (s : ConversationMemory)
    (hcur : getCurrentSession ctx.memoryTracker = some s) :
    (isValidTier ctx.ruleStrategy tier = false →
      handleSwitchTier ctx tier reason now freshId
        = (SwitchTierResult.invalidTier tier ctx.state.strategy, ctx)) ∧
    (isValidTier ctx.ruleStrategy tier = true →
      ∃ ctx' e,
        handleSwitchTier ctx tier reason now freshId
          = (SwitchTierResult.switched ctx.state.currentTier tier, ctx') ∧
        ctx'.state.currentTier = tier ∧
        ctx'.state.strategy = ctx.state.strategy ∧
        ctx'.state.autoMode = ctx.state.autoMode ∧
        ctx'.budget = ctx.budget ∧
        ctx'.costTracker = ctx.costTracker ∧
        getCurrentSession ctx'.memoryTracker
          = some (bumpSession s e ctx.memoryTracker.maxEntriesPerSession) ∧
        e.success = true ∧ e.tier_used = tier ∧ e.timestamp = now) := by
  constructor
  · intro hv
    unfold handleSwitchTier
    rw [hv]
    rfl
  · intro hv
    have hhst : handleSwitchTier ctx tier reason now freshId
        = (SwitchTierResult.switched ctx.state.currentTier tier,
           switchTier ctx tier reason now freshId) := by
      unfold handleSwitchTier
      rw [hv]
      rfl
    refine ⟨switchTier ctx tier reason now freshId,
      switchEntry ctx.state.currentTier tier now reason,
      hhst, rfl, rfl, rfl, rfl, rfl, ?_, rfl, rfl, rfl⟩
    have hmem : (switchTier ctx tier reason now freshId).memoryTracker
        = { ctx.memoryTracker with
            sessions := updateSessionEntries s.session_id
              (switchEntry ctx.state.currentTier tier now reason)
              ctx.memoryTracker.maxEntriesPerSession ctx.memoryTracker.sessions } := by
      show recordTask ctx.memoryTracker now freshId
        (String.data ("tier_switch:" ++ ctx.state.currentTier ++ "->" ++ tier))
        tier true reason = _
      simp only [recordTask, hcur, switchEntry]
    rw [hmem]
    exact getCurrentSession_update ctx.memoryTracker s _ _ hcur

/-- C9 witness: switching to `critical` under the 2-tier strategy succeeds
and records the entry; an invalid `tier9` leaves the context unchanged. -/
theorem switch_tier_spec_witness :
    getCurrentSession ctxC9.memoryTracker = some sC8 ∧
    ((isValidTier ctxC9.ruleStrategy "critical" = false →
      handleSwitchTier ctxC9 "critical" (some "because") 9 11
        = (SwitchTierResult.invalidTier "critical" ctxC9.state.strategy, ctxC9)) ∧
    (isValidTier ctxC9.ruleStrategy "critical" = true →
      ∃ ctx' e,
        handleSwitchTier ctxC9 "critical" (some "because") 9 11
          = (SwitchTierResult.switched ctxC9.state.currentTier "critical", ctx') ∧
        ctx'.state.currentTier = "critical" ∧
        ctx'.state.strategy = ctxC9.state.strategy ∧
        ctx'.state.autoMode = ctxC9.state.autoMode ∧
        ctx'.budget = ctxC9.budget ∧
        ctx'.costTracker = ctxC9.costTracker ∧
        getCurrentSession ctx'.memoryTracker
          = some (bumpSession sC8 e ctxC9.memoryTracker.maxEntriesPerSession) ∧
        e.success = true ∧ e.tier_used = "critical" ∧ e.timestamp = 9)) :=
  ⟨rfl, switch_tier_spec ctxC9 "critical" (some "because") 9 11 sC8 rfl⟩

/-- C10: a `set_budget` call with a valid limit changes only the stored
budget's `monthly_limit_usd` (creating a config with empty thresholds when
none existed); the stored `alert_thresholds` — the ones a later orchestrate
call's budget gate consults — are untouched by the default/custom threshold
list built for the response. -/
theorem set_budget_frame (ctx : ServerContext) (monthlyLimit alertPercent : ℚ)
    (monthKey : String) (hlim : ¬ monthlyLimit ≤ 0)
    (hpct : ¬ (alertPercent < 0 ∨ alertPercent > 100)) :
    (handleSetBudget ctx monthlyLimit alertPercent monthKey).2
      = withBudgetLimit ctx monthlyLimit ∧
    orchBudgetParam (handleSetBudget ctx monthlyLimit alertPercent monthKey).2
      = budgetParamOf monthlyLimit (storedThresholds ctx) := by
  have h2 : (handleSetBudget ctx monthlyLimit alertPercent monthKey).2
      = { ctx with budget := some (match ctx.budget with
          | none => { monthly_limit_usd := monthlyLimit, alert_thresholds := [] }
          | some b => { b with monthly_limit_usd := monthlyLimit }) } := by
    unfold handleSetBudget
    rw [if_neg hlim, if_neg hpct]
  have h3 : (match ctx.budget with
      | none => ({ monthly_limit_usd := monthlyLimit,
                   alert_thresholds := [] } : BudgetConfig)
      | some b => { b with monthly_limit_usd := monthlyLimit })
      = { monthly_limit_usd := monthlyLimit,
          alert_thresholds := storedThresholds ctx } := by
    unfold storedThresholds
    cases hb : ctx.budget with
    | none => rfl
    | some b => rfl
  rw [h2, h3]
  exact ⟨rfl, rfl⟩

/-- C10 witness: with a stored 42%→notify threshold, setting the limit to 9
keeps exactly that stored threshold while the budget consulted by
orchestrate reflects the new limit. -/
theorem set_budget_frame_witness :
    ¬ (9 : ℚ) ≤ 0 ∧ ¬ ((80 : ℚ) < 0 ∨ (80 : ℚ) > 100) ∧
    ((handleSetBudget ctxC10 9 80 "2026-10").2 = withBudgetLimit ctxC10 9 ∧
    orchBudgetParam (handleSetBudget ctxC10 9 80 "2026-10").2
      = budgetParamOf 9 (storedThresholds ctxC10)) :=
  ⟨by norm_num, by norm_num,
    set_budget_frame ctxC10 9 80 "2026-10" (by norm_num) (by norm_num)⟩

/-- C2 (amended): when no keyword rule matches and error escalation
contributes nothing, a matching cost-optimization heuristic wins outright:
classify returns the cost-optimization match (targeting the lowest tier)
regardless of any SessionMemory recommendation, and the memory-based pass
decides the result only when the cost-optimization pass also produced no
match. -/
theorem classify_costopt_over_memory (cfg : RulesConfig) (s : Strategy)
    (w : List Int) (now : Int) (mem : Option MemoryData) (task : Str)
    (curr : String)
    (hkw : keywordMatches cfg.keyword_rules s (lowerStr task) = [])
    (hesc : escalationMatch cfg s w now curr = none) :
    (∀ c, costOptMatch cfg s (lowerStr task) = some c →
      classifyTask (some cfg) s w now mem task curr = some c) ∧
    (costOptMatch cfg s (lowerStr task) = none →
      classifyTask (some cfg) s w now mem task curr = memoryMatch s mem task) := by
  constructor
  · intro c hco
    have hms : classifyMatches cfg s w now mem task curr = [c] := by
      simp [classifyMatches, hkw, hesc, hco]
    show (sortKeyed (fun m : RuleMatch => m.priority)
      (classifyMatches cfg s w now mem task curr)).head? = some c
    rw [hms]
    rfl
  · intro hco
    cases hmm : memoryMatch s mem task with
    | none =>
      have hms : classifyMatches cfg s w now mem task curr = [] := by
        simp [classifyMatches, hkw, hesc, hco, hmm]
      show (sortKeyed (fun m : RuleMatch => m.priority)
        (classifyMatches cfg s w now mem task curr)).head? = none
      rw [hms]
      rfl
    | some mrec =>
      have hms : classifyMatches cfg s w now mem task curr = [mrec] := by
        simp [classifyMatches, hkw, hesc, hco, hmm]
      show (sortKeyed (fun m : RuleMatch => m.priority)
        (classifyMatches cfg s w now mem task curr)).head? = some mrec
      rw [hms]
      rfl

/-- C2 witness: with no keyword rules, escalation disabled and the
simple-task pattern "list files" configured, the two branches of the
corrected ordering hold at a concrete task and memory state. -/
theorem classify_costopt_over_memory_witness :
    keywordMatches cfgC2.keyword_rules Strategy.twoTier
        (lowerStr "list files please".data) = [] ∧
    escalationMatch cfgC2 Strategy.twoTier [] 0 "primary" = none ∧
    ((∀ c, costOptMatch cfgC2 Strategy.twoTier (lowerStr "list files please".data)
          = some c →
        classifyTask (some cfgC2) Strategy.twoTier [] 0 (some memC2)
          "list files please".data "primary" = some c) ∧
     (costOptMatch cfgC2 Strategy.twoTier (lowerStr "list files please".data)
          = none →
        classifyTask (some cfgC2) Strategy.twoTier [] 0 (some memC2)
          "list files please".data "primary"
          = memoryMatch Strategy.twoTier (some memC2) "list files please".data)) :=
  ⟨rfl, rfl, classify_costopt_over_memory cfgC2 Strategy.twoTier [] 0 (some memC2)
    "list files please".data "primary" rfl rfl⟩

/-- C2 counterexample: with no keyword/escalation signal, a matching
simple-task pattern, and a memory recommendation of `critical` that is
valid for the 2-tier strategy, classify returns the cost-optimization tier
`primary` — memory does not beat the simple-task heuristic. -/
theorem classify_memory_loses_counterexample :
    getRecommendedTier memC2 "list files please".data = some "critical" ∧
    isValidTier Strategy.twoTier "critical" = true ∧
    (classifyTask (some cfgC2) Strategy.twoTier [] 0 (some memC2)
        "list files please".data "primary").map (fun m => m.target_tier)
      = some "primary" ∧
    ("primary" : String) ≠ "critical" := by
  refine ⟨rfl, rfl, rfl, by decide⟩

/-- C3 (amended): when escalation is enabled, the non-expired error count
meets the threshold, and the current tier has a next tier in the strategy's
strict escalation order, classify returns the escalation match targeting
exactly that next tier — provided every keyword rule's priority is below
the fixed escalation priority 200 (a rule configured at priority ≥ 200 can
beat it); escalation from a tier with no successor (the terminal tier)
contributes no match. -/
theorem classify_error_escalation (cfg : RulesConfig) (s : Strategy) (w : List Int)
    (now : Int) (mem : Option MemoryData) (task : Str) (curr t : String)
    (henabled : cfg.error_escalation.enabled = true)
    (hcount : cfg.error_escalation.threshold
      ≤ ((cleanErrorWindow cfg.error_escalation.window_minutes now w).length : Int))
    (hnext : getEscalatedTier s curr = some t)
    (hpri : ∀ r ∈ cfg.keyword_rules, r.priority < 200) :
    (∃ e, classifyTask (some cfg) s w now mem task curr = some e ∧
        e.rule_name = "error_escalation" ∧ e.target_tier = t ∧ e.priority = 200) ∧
    (∀ (cfg₂ : RulesConfig) (s₂ : Strategy) (w₂ : List Int) (now₂ : Int)
        (c₂ : String),
      getEscalatedTier s₂ c₂ = none → escalationMatch cfg₂ s₂ w₂ now₂ c₂ = none) ∧
    getEscalatedTier Strategy.twoTier "critical" = none ∧
    getEscalatedTier Strategy.threeTier "tier3" = none := by
  refine ⟨?_, ?_, rfl, rfl⟩
  · have hesc : escalationMatch cfg s w now curr = some
        { rule_name := "error_escalation", target_tier := t, priority := 200,
          reason :=
            toString (cleanErrorWindow cfg.error_escalation.window_minutes now w).length
            ++ " errors in last " ++ toString cfg.error_escalation.window_minutes
            ++ " minutes" } := by
      unfold escalationMatch
      rw [if_pos henabled]
      dsimp only
      rw [if_pos hcount, hnext]
    obtain ⟨e, he⟩ : ∃ e, escalationMatch cfg s w now curr = some e := ⟨_, hesc⟩
    obtain ⟨t', ht', htar, hp200, hnm⟩ := escalationMatch_some cfg s w now curr e he
    obtain rfl : t' = t := by
      rw [hnext] at ht'
      exact (Option.some.inj ht').symm
    have hms : classifyMatches cfg s w now mem task curr
        = keywordMatches cfg.keyword_rules s (lowerStr task) ++ [e] := by
      simp [classifyMatches, he]
    rcases hs : sortKeyed (fun m : RuleMatch => m.priority)
        (classifyMatches cfg s w now mem task curr) with _ | ⟨x, rest⟩
    · exfalso
      have hemem : e ∈ classifyMatches cfg s w now mem task curr := by
        rw [hms]
        simp
      have hz := (sortKeyed_perm (fun m : RuleMatch => m.priority) _).symm.mem_iff.mp hemem
      rw [hs] at hz
      cases hz
    · obtain ⟨pre, post, hdec, hpre2, hall⟩ := sortKeyed_head _ _ _ _ hs
      have hxmem : x ∈ classifyMatches cfg s w now mem task curr := by
        rw [hdec]
        exact List.mem_append.mpr (Or.inr (List.mem_cons_self x post))
      rw [hms] at hxmem
      rcases List.mem_append.mp hxmem with hxkw | hxe
      · exfalso
        obtain ⟨r, hr, hpeq, -⟩ := keywordMatches_mem _ _ _ _ hxkw
        have hemem : e ∈ classifyMatches cfg s w now mem task curr := by
          rw [hms]
          simp
        have h200 := hall e hemem
        rw [hp200, hpeq] at h200
        have := hpri r hr
        omega
      · have hxe' : x = e := by simpa using hxe
        refine ⟨e, ?_, hnm, htar, hp200⟩
        show (sortKeyed (fun m : RuleMatch => m.priority)
          (classifyMatches cfg s w now mem task curr)).head? = some e
        rw [hs, hxe']
        rfl
  · intro cfg₂ s₂ w₂ now₂ c₂ hnone
    unfold escalationMatch
    split
    · dsimp only
      split
      · rw [hnone]
      · rfl
    · rfl

/-- C3 witness: one error at threshold 1 under the 3-tier strategy with an
ordinary priority-100 keyword rule escalates `tier1` to `tier2`. -/
theorem classify_error_escalation_witness :
    cfgC3w.error_escalation.enabled = true ∧
    cfgC3w.error_escalation.threshold
      ≤ ((cleanErrorWindow cfgC3w.error_escalation.window_minutes 0 [0]).length : Int) ∧
    getEscalatedTier Strategy.threeTier "tier1" = some "tier2" ∧
    (∀ r ∈ cfgC3w.keyword_rules, r.priority < 200) ∧
    ((∃ e, classifyTask (some cfgC3w) Strategy.threeTier [0] 0 none
          "hello there".data "tier1" = some e ∧
        e.rule_name = "error_escalation" ∧ e.target_tier = "tier2" ∧
        e.priority = 200) ∧
     (∀ (cfg₂ : RulesConfig) (s₂ : Strategy) (w₂ : List Int) (now₂ : Int)
         (c₂ : String),
       getEscalatedTier s₂ c₂ = none → escalationMatch cfg₂ s₂ w₂ now₂ c₂ = none) ∧
     getEscalatedTier Strategy.twoTier "critical" = none ∧
     getEscalatedTier Strategy.threeTier "tier3" = none) :=
  ⟨rfl, by decide, rfl, by decide,
    classify_error_escalation cfgC3w Strategy.threeTier [0] 0 none
      "hello there".data "tier1" "tier2" rfl (by decide) rfl (by decide)⟩

/-- C3 counterexample: a keyword rule configured at priority 300 defeats a
simultaneously firing escalation match (fixed priority 200): with one error
at threshold 1, classify returns the keyword rule's target `primary`, not
the escalation target `critical`. -/
theorem classify_escalation_loses_counterexample :
    (escalationMatch cfgC3 Strategy.twoTier [0] 0 "primary").map
        (fun m => m.target_tier) = some "critical" ∧
    (classifyTask (some cfgC3) Strategy.twoTier [0] 0 none "x".data "primary").map
        (fun m => (m.rule_name, m.target_tier)) = some ("big_rule", "primary") :=
  ⟨rfl, rfl⟩

/-- C4 (amended): classify returns none or a tier in the active strategy's
tier set, provided every keyword rule's target for the active strategy lies
in that set (keyword targets are taken verbatim from configuration without
validation); escalation, cost-optimization and memory matches always lie in
the strategy's tier set. -/
theorem classify_tier_set (cfg : RulesConfig) (s : Strategy) (w : List Int)
    (now : Int) (mem : Option MemoryData) (task : Str) (curr : String)
    (hkw : ∀ r ∈ cfg.keyword_rules, ∀ tt, targetFor r s = some tt →
      isValidTier s tt = true) :
    ∀ m, classifyTask (some cfg) s w now mem task curr = some m →
      isValidTier s m.target_tier = true := by
  intro m hm
  have hm' : (sortKeyed (fun m : RuleMatch => m.priority)
      (classifyMatches cfg s w now mem task curr)).head? = some m := hm
  rcases hs : sortKeyed (fun m : RuleMatch => m.priority)
      (classifyMatches cfg s w now mem task curr) with _ | ⟨x, rest⟩
  · rw [hs] at hm'
    cases hm'
  · rw [hs] at hm'
    obtain rfl : x = m := by simpa using hm'
    have hxmem : x ∈ classifyMatches cfg s w now mem task curr := by
      have := List.mem_cons_self x rest
      rw [← hs] at this
      exact (sortKeyed_perm _ _).mem_iff.mp this
    rcases classifyMatches_mem _ _ _ _ _ _ _ _ hxmem with hkw1 | hesc | hco | hmm
    · obtain ⟨r, hr, -, htf⟩ := keywordMatches_mem _ _ _ _ hkw1
      exact hkw r hr _ htf
    · obtain ⟨t, ht, htar, -, -⟩ := escalationMatch_some _ _ _ _ _ _ hesc
      rw [htar]
      exact getEscalatedTier_valid s curr t ht
    · obtain ⟨htar, -⟩ := costOptMatch_some _ _ _ _ hco
      rw [htar]
      cases s <;> decide
    · exact (memoryMatch_some _ _ _ _ hmm).1

/-- C4 witness: under the 2-tier strategy with a rule targeting `critical`,
the classification of a concrete matching task lies in the tier set. -/
theorem classify_tier_set_witness :
    (∀ r ∈ cfgC3w.keyword_rules, ∀ tt, targetFor r Strategy.twoTier = some tt →
      isValidTier Strategy.twoTier tt = true) ∧
    (∀ m, classifyTask (some cfgC3w) Strategy.twoTier [] 0 none
        "architecture review".data "primary" = some m →
      isValidTier Strategy.twoTier m.target_tier = true) := by
  have hkw : ∀ r ∈ cfgC3w.keyword_rules, ∀ tt,
      targetFor r Strategy.twoTier = some tt →
      isValidTier Strategy.twoTier tt = true := by
    intro r hr tt htf
    obtain rfl := List.mem_singleton.mp hr
    have hc : some "critical" = some tt := htf
    obtain rfl := Option.some.inj hc
    rfl
  exact ⟨hkw, classify_tier_set cfgC3w Strategy.twoTier [] 0 none
    "architecture review".data "primary" hkw⟩

/-- C4 counterexample: a keyword rule whose 2-tier target is `tier3` (the
schema does not validate targets) makes classify return a tier outside the
2-tier strategy's tier set. -/
theorem classify_invalid_target_counterexample :
    (classifyTask (some cfgC4) Strategy.twoTier [] 0 none "x".data "primary").map
        (fun m => m.target_tier) = some "tier3" ∧
    isValidTier Strategy.twoTier "tier3" = false :=
  ⟨rfl, rfl⟩

/-- C5 (amended): for every budget configuration and recorded spend, the
status's `percent_used` equals the unrounded `spent / limit × 100` (0 when
the limit is ≤ 0) rounded to one decimal place; `triggered_alerts` contains
exactly the configured thresholds whose percent is at most the unrounded
percentage, sorted descending by percent; and `is_blocked` is true iff some
triggered alert's action is the block-high-cost-tiers action. -/
theorem getStatus_spec (data : UsageData) (budget : BudgetParam) (monthKey : String) :
    (getStatus data budget monthKey).percent_used
        = round1 (specPercentUsed data budget monthKey) ∧
    ((getStatus data budget monthKey).triggered_alerts).Perm
        (specTriggered budget (specPercentUsed data budget monthKey)) ∧
    ((getStatus data budget monthKey).triggered_alerts).Pairwise
        (fun a b => b.percent ≤ a.percent) ∧
    ((getStatus data budget monthKey).is_blocked = true ↔
      ∃ t ∈ (getStatus data budget monthKey).triggered_alerts,
        t.action = "block_high_tier") := by
  refine ⟨rfl, sortKeyed_perm _ _, sortKeyed_sorted _ _, ?_⟩
  constructor
  · intro h
    have h' : ((getStatus data budget monthKey).triggered_alerts.any
        (fun t => t.action == "block_high_tier"
          && decide (t.percent ≤ specPercentUsed data budget monthKey))) = true := h
    rw [List.any_eq_true] at h'
    obtain ⟨t, ht, hp⟩ := h'
    rw [Bool.and_eq_true] at hp
    exact ⟨t, ht, by simpa using hp.1⟩
  · rintro ⟨t, ht, ha⟩
    show ((getStatus data budget monthKey).triggered_alerts.any
      (fun t => t.action == "block_high_tier"
        && decide (t.percent ≤ specPercentUsed data budget monthKey))) = true
    rw [List.any_eq_true]
    refine ⟨t, ht, ?_⟩
    rw [Bool.and_eq_true]
    have ht2 : t ∈ List.filter
        (fun t => decide (t.percent ≤ specPercentUsed data budget monthKey))
        (budget.alert_thresholds.getD [{ percent := 80, action := "notify_user" }]) :=
      (sortKeyed_perm (fun a : AlertThreshold => a.percent) _).mem_iff.mp ht
    exact ⟨by simpa using ha, (List.mem_filter.mp ht2).2⟩

/-- C5 counterexample: the `percent_used` field reported by `getStatus` is
rounded to one decimal place, so after recording a $1 spend against a $3
monthly limit it reports 33.3 rather than the exact 100/3 the claim's
formula gives. -/
theorem getStatus_percent_not_exact :
    (getStatus
      (record emptyUsage
        { provider := "anthropic", model := "opus", tier := "critical",
          input_tokens := 100, output_tokens := 50, cost_usd := 1 } 0 "2026-10")
      { monthly_limit_usd := 3, alert_thresholds := some [] } "2026-10").percent_used
    ≠ specPercentUsed
      (record emptyUsage
        { provider := "anthropic", model := "opus", tier := "critical",
          input_tokens := 100, output_tokens := 50, cost_usd := 1 } 0 "2026-10")
      { monthly_limit_usd := 3, alert_thresholds := some [] } "2026-10" := by
  intro h
  have h1 : (getStatus
      (record emptyUsage
        { provider := "anthropic", model := "opus", tier := "critical",
          input_tokens := 100, output_tokens := 50, cost_usd := 1 } 0 "2026-10")
      { monthly_limit_usd := 3, alert_thresholds := some [] } "2026-10").percent_used
      = (333 : ℚ) / 10 := by with_unfolding_all rfl
  have h2 : specPercentUsed
      (record emptyUsage
        { provider := "anthropic", model := "opus", tier := "critical",
          input_tokens := 100, output_tokens := 50, cost_usd := 1 } 0 "2026-10")
      { monthly_limit_usd := 3, alert_thresholds := some [] } "2026-10"
      = (100 : ℚ) / 3 := by with_unfolding_all rfl
  rw [h1, h2] at h
  norm_num at h

end SmartTier
